import Mathlib

/-!
Verification development for the poker server's game core.

The definitions below are a shallow embedding of the TypeScript sources:
`src/game/game.types.ts`, `src/game/deck.service.ts`,
`src/game/hand-evaluator.service.ts`, `src/game/anti-cheat.service.ts` and
the newer revision of `src/game/game-engine.service.ts`.

Modelling conventions:
- JS `number` used for chips/bets is modelled as `Int`: the engine never
  divides bets except for the floored pot split (`Math.floor`, modelled as
  `Int.fdiv`), and chip amounts in play are integral, where JS float
  arithmetic coincides with integer arithmetic. The engine's float-drift
  tolerance `Math.abs(x) < 0.01` is transcribed as `100 * |x| < 1`.
  Card values and timestamps are likewise `Int`.
- In-place mutation is modelled by explicit state passing.
- A thrown exception (only `drawCards` on an exhausted deck can throw inside
  the functions modelled here) is modelled as `Option.none`.
- `Date.now()` is passed in as an explicit `now` parameter; the
  cryptographic shuffle is modelled as a nondeterministically chosen
  permutation of the freshly built deck, passed in as a parameter.
- Cosmetic fields (the random card `id`, player `lastActionTime`,
  `lastActionTimestamp`) and the pure observers (hand-history logging,
  `console.log`) do not influence any modelled behaviour and are omitted.
-/

set_option maxRecDepth 4000

namespace PokerServer

/-! ## Generic list helpers used to model in-place array mutation -/

/-- Replace the element at position `i` by `f` applied to it (no-op out of range). -/
def updateAt {α : Type} : Nat → (α → α) → List α → List α
  | _, _, [] => []
  | 0, f, x :: xs => f x :: xs
  | n + 1, f, x :: xs => x :: updateAt n f xs

/-- Map over a list with access to the element index, starting from `i`. -/
def mapFromIdx {α : Type} (f : Nat → α → α) : Nat → List α → List α
  | _, [] => []
  | i, x :: xs => f i x :: mapFromIdx f (i + 1) xs

/-- Association-list lookup, modelling `Map.get`. -/
def alookup {β : Type} (k : String) : List (String × β) → Option β
  | [] => none
  | (k', v) :: rest => if k' = k then some v else alookup k rest

/-- Association-list update, modelling `Map.set` (replaces in place, else appends). -/
def aset {β : Type} (k : String) (v : β) : List (String × β) → List (String × β)
  | [] => [(k, v)]
  | (k', v') :: rest => if k' = k then (k, v) :: rest else (k', v') :: aset k v rest

/-! ## game.types.ts -/

/-- Card suit; the TS code uses the four literal strings '♠','♥','♣','♦'. -/
inductive Suit
  | spades
  | hearts
  | clubs
  | diamonds
deriving DecidableEq, Repr

/-- Card. The cosmetic random `id` string of the TS interface is omitted
(the spec declares card identity to be `(suit, rank)`). -/
structure Card where
  suit : Suit
  rank : String
  value : Int
deriving DecidableEq, Repr

/-- Placeholder used where the TS code would read a field of `undefined`. -/
def dummyCard : Card := ⟨Suit.spades, "", 0⟩

inductive GameType
  | texas
  | omaha
  | omaha_hi_lo
  | courchevel
  | royal
  | short_deck
  | manila
  | pineapple
  | fast_fold
deriving DecidableEq, Repr

inductive BettingType
  | NL
  | PL
deriving DecidableEq, Repr

inductive GameStage
  | waiting
  | preflop
  | flop
  | turn
  | river
  | showdown
deriving DecidableEq, Repr

structure ServerPlayer where
  odId : String
  odName : String
  odStack : Int
  holeCards : List Card
  folded : Bool
  hasActed : Bool
  currentRoundBet : Int
  totalBetThisHand : Int
  seatIndex : Nat
  isAllIn : Bool
  isConnected : Bool
deriving DecidableEq, Repr

structure Blinds where
  small : Int
  big : Int
deriving DecidableEq, Repr

structure LastActionInfo where
  seatIndex : Nat
  text : String
deriving DecidableEq, Repr

structure WinnerEntry where
  odId : String
  amount : Int
  handRank : String
  winningCards : List Card
deriving DecidableEq, Repr

structure GameState where
  tableId : String
  stage : GameStage
  pot : Int
  communityCards : List Card
  currentHighBet : Int
  activePlayerIndex : Int
  dealerIndex : Nat
  players : List ServerPlayer
  blinds : Blinds
  gameType : GameType
  bettingType : BettingType
  raisesThisRound : Nat
  lastRaiseAmount : Int
  handNumber : Nat
  lastAction : Option LastActionInfo
  winners : Option (List WinnerEntry)
deriving DecidableEq, Repr

inductive ActionKind
  | fold
  | check
  | call
  | raise
  | allin
deriving DecidableEq, Repr

structure PlayerAction where
  odId : String
  tableId : String
  action : ActionKind
  amount : Option Int
  timestamp : Int
deriving DecidableEq, Repr

structure ActionResult where
  success : Bool
  error : Option String
deriving DecidableEq, Repr

structure ClientPlayer where
  odId : String
  odName : String
  odStack : Int
  folded : Bool
  hasActed : Bool
  currentRoundBet : Int
  seatIndex : Nat
  isAllIn : Bool
  isConnected : Bool
  holeCards : List Card
deriving DecidableEq, Repr

structure ClientGameState where
  tableId : String
  stage : GameStage
  pot : Int
  communityCards : List Card
  currentHighBet : Int
  activePlayerIndex : Int
  dealerIndex : Nat
  players : List ClientPlayer
  blinds : Blinds
  myHoleCards : List Card
  mySeatIndex : Int
  handNumber : Nat
  gameType : GameType
  winners : Option (List WinnerEntry)
  lastAction : Option LastActionInfo
deriving DecidableEq, Repr

/-! ## deck.service.ts -/

def SUITS : List Suit := [Suit.spades, Suit.hearts, Suit.clubs, Suit.diamonds]

def RANKS_FULL : List String :=
  ["2", "3", "4", "5", "6", "7", "8", "9", "10", "J", "Q", "K", "A"]

def RANKS_SHORT : List String := ["6", "7", "8", "9", "10", "J", "Q", "K", "A"]

def RANKS_ROYAL : List String := ["10", "J", "Q", "K", "A"]

def RANKS_MANILA : List String := ["7", "8", "9", "10", "J", "Q", "K", "A"]

/-- Numeric value of a rank string. `parseInt` in the source is only ever
applied to the rank strings of the deck tables; other strings map to 0. -/
def getRankValue (rank : String) : Int :=
  if rank = "A" then 14
  else if rank = "K" then 13
  else if rank = "Q" then 12
  else if rank = "J" then 11
  else if rank = "10" then 10
  else if rank = "9" then 9
  else if rank = "8" then 8
  else if rank = "7" then 7
  else if rank = "6" then 6
  else if rank = "5" then 5
  else if rank = "4" then 4
  else if rank = "3" then 3
  else if rank = "2" then 2
  else 0

def getRanksForGameType (gameType : GameType) : List String :=
  match gameType with
  | GameType.short_deck => RANKS_SHORT
  | GameType.royal => RANKS_ROYAL
  | GameType.manila => RANKS_MANILA
  | _ => RANKS_FULL

/-- The freshly built (unshuffled) deck: suit-major order as in the TS loops.
`createShuffledDeck` is this deck followed by a Fisher-Yates shuffle over a
random source; a shuffle outcome is modelled as an arbitrary permutation of
`createDeck` supplied by the environment. -/
def createDeck (gameType : GameType) : List Card :=
  SUITS.flatMap (fun s =>
    (getRanksForGameType gameType).map (fun r => ⟨s, r, getRankValue r⟩))

/-- Draw `count` cards off the top; the TS version throws when the deck is
too short, modelled as `none`. -/
def drawCards (deck : List Card) (count : Nat) : Option (List Card × List Card) :=
  if deck.length < count then none
  else some (deck.take count, deck.drop count)

/-! ## hand-evaluator.service.ts -/

structure HandResult where
  rank : Int
  score : Int
  description : String
  bestFive : List Card
deriving DecidableEq, Repr

/-- All size-`size` combinations of `array`, in the DFS order of the TS helper. -/
def getCombinations {α : Type} : List α → Nat → List (List α)
  | _, 0 => [[]]
  | [], _ + 1 => []
  | x :: xs, k + 1 =>
    (getCombinations xs k).map (fun c => x :: c) ++ getCombinations xs (k + 1)

/-- Stable insertion used to model the stable JS sort by descending card value. -/
def insertByValueDesc (c : Card) : List Card → List Card
  | [] => [c]
  | x :: xs => if c.value ≤ x.value then x :: insertByValueDesc c xs else c :: x :: xs

/-- Stable sort by descending card value (models `[...cards].sort((a,b) => b.value - a.value)`). -/
def sortByValueDesc (l : List Card) : List Card :=
  l.foldr insertByValueDesc []

def insertDescInt (v : Int) : List Int → List Int
  | [] => [v]
  | x :: xs => if v ≤ x then x :: insertDescInt v xs else v :: x :: xs

/-- Sort a list of integers descending (models `.sort((a,b) => b - a)`). -/
def sortDescInt (l : List Int) : List Int :=
  l.foldr insertDescInt []

def insertAscInt (v : Int) : List Int → List Int
  | [] => [v]
  | x :: xs => if x ≤ v then x :: insertAscInt v xs else v :: x :: xs

/-- Sort a list of integers ascending. -/
def sortAscInt (l : List Int) : List Int :=
  l.foldr insertAscInt []

/-- Flush detection: iterate the four suits in declaration order, the last
suit holding ≥ 5 cards providing `(isFlush, flushScore, flushCards)`. -/
def flushFold (sorted : List Card) : Bool × Int × List Card :=
  SUITS.foldl (fun acc s =>
    let cs := sorted.filter (fun c => decide (c.suit = s))
    if 5 ≤ cs.length then (true, 600 + (cs.headD dummyCard).value, cs.take 5)
    else acc) (false, 0, [])

/-- Distinct card values in ascending order: JS object keys that are numeric
strings enumerate in ascending numeric order. -/
def distinctValuesAsc (sorted : List Card) : List Int :=
  sortAscInt (sorted.map (fun c => c.value)).dedup

/-- Distinct card values in descending order (JS `[...new Set(...)]` of an
already-descending list, re-sorted descending). -/
def distinctValuesDesc (sorted : List Card) : List Int :=
  sortDescInt (sorted.map (fun c => c.value)).dedup

def countOfValue (sorted : List Card) (v : Int) : Nat :=
  (sorted.filter (fun c => decide (c.value = v))).length

/-- First window of five consecutive descending distinct values; models the
TS `for` loop that breaks at the first index with `values[i] - values[i+4] === 4`. -/
def windowHigh : List Int → Option Int
  | a :: b :: c :: d :: e :: rest =>
    if a - e = 4 then some a else windowHigh (b :: c :: d :: e :: rest)
  | _ => none

/-- Straight detection on the distinct descending values, including the wheel. -/
def straightInfo (valuesDesc : List Int) : Bool × Int :=
  match windowHigh valuesDesc with
  | some v => (true, v)
  | none =>
    if valuesDesc.contains 14 ∧ valuesDesc.contains 2 ∧ valuesDesc.contains 3 ∧
        valuesDesc.contains 4 ∧ valuesDesc.contains 5 then
      (true, 5)
    else (false, 0)

/-- Straight-flush / royal-flush branch of `evaluate5CardHand`. -/
def straightFlushResult (flushCards : List Card) : Option HandResult :=
  match windowHigh (sortDescInt (flushCards.map (fun c => c.value))) with
  | some v =>
    if v = 14 then some ⟨10, 1000, "Royal Flush", flushCards⟩
    else some ⟨9, 900 + v, "Straight Flush", flushCards⟩
  | none => none

/-- Shared tail of the category chain (straight and below). -/
def lowCategories (sorted : List Card) (isStraight : Bool) (straightHigh : Int)
    (threes pairs : List Int) : HandResult :=
  if isStraight then ⟨5, 500 + straightHigh, "Straight", sorted⟩
  else if threes ≠ [] then ⟨4, 400 + threes.headD 0, "Three of a Kind", sorted⟩
  else if 2 ≤ pairs.length then
    ⟨3, 300 + pairs.headD 0 * 15 + (pairs.drop 1).headD 0, "Two Pair", sorted⟩
  else if pairs.length = 1 then ⟨2, 200 + pairs.headD 0, "Pair", sorted⟩
  else ⟨1, 100 + (sorted.headD dummyCard).value,
        "High Card " ++ (sorted.headD dummyCard).rank, sorted.take 5⟩

/-- Score a 5-card hand (the engine only ever calls this with exactly five
cards, but the definition is total like the TS original). -/
def evaluate5CardHand (cards : List Card) (gameType : GameType) : HandResult :=
  let sorted := sortByValueDesc cards
  let fl := flushFold sorted
  let isFlush := fl.1
  let flushScore := fl.2.1
  let flushCards := fl.2.2
  let asc := distinctValuesAsc sorted
  let fours := asc.filter (fun v => decide (countOfValue sorted v = 4))
  let threes := sortDescInt (asc.filter (fun v => decide (countOfValue sorted v = 3)))
  let pairs := sortDescInt (asc.filter (fun v => decide (countOfValue sorted v = 2)))
  let st := straightInfo (distinctValuesDesc sorted)
  let isStraight := st.1
  let straightHigh := st.2
  let sf : Option HandResult :=
    if isFlush ∧ isStraight then straightFlushResult flushCards else none
  match sf with
  | some r => r
  | none =>
    if gameType = GameType.short_deck then
      -- Short deck: flush beats full house
      if fours ≠ [] then ⟨8, 800 + fours.headD 0, "Four of a Kind", sorted⟩
      else if isFlush then ⟨7, flushScore + 100, "Flush", flushCards⟩
      else if threes ≠ [] ∧ pairs ≠ [] then
        ⟨6, 700 + threes.headD 0, "Full House", sorted⟩
      else lowCategories sorted isStraight straightHigh threes pairs
    else
      if fours ≠ [] then ⟨8, 800 + fours.headD 0, "Four of a Kind", sorted⟩
      else if threes ≠ [] ∧ pairs ≠ [] then
        ⟨7, 700 + threes.headD 0, "Full House", sorted⟩
      else if isFlush then ⟨6, flushScore, "Flush", flushCards⟩
      else lowCategories sorted isStraight straightHigh threes pairs

/-- Replace the running best result when the candidate is strictly better,
first by rank and then by score. -/
def updateBest (best res : HandResult) : HandResult :=
  if best.rank < res.rank ∨ (res.rank = best.rank ∧ best.score < res.score) then res
  else best

/-- Sentinel the enumeration starts from (`{rank: -1, score: -1, ...}`). -/
def initialBest : HandResult := ⟨-1, -1, "", []⟩

/-- Result returned before enough cards are available. -/
def waitingResult : HandResult := ⟨0, 0, "Waiting...", []⟩

/-- Best hand across hole and community cards; Omaha-family variants
enumerate exactly 2 hole cards and 3 board cards, the others the best five
of the union. -/
def evaluateHand (holeCards communityCards : List Card) (gameType : GameType) :
    HandResult :=
  if gameType = GameType.omaha ∨ gameType = GameType.omaha_hi_lo ∨
      gameType = GameType.courchevel then
    if holeCards.length < 2 ∨ communityCards.length < 3 then waitingResult
    else
      (getCombinations holeCards 2).foldl (fun acc h =>
        (getCombinations communityCards 3).foldl (fun acc2 b =>
          updateBest acc2 (evaluate5CardHand (h ++ b) gameType)) acc) initialBest
  else
    let all := holeCards ++ communityCards
    if all.length < 5 then waitingResult
    else
      (getCombinations all 5).foldl (fun acc hand =>
        updateBest acc (evaluate5CardHand hand gameType)) initialBest

structure ShowdownPlayer where
  odId : String
  holeCards : List Card
  folded : Bool
deriving DecidableEq, Repr

structure WinnerResult where
  odId : String
  hand : HandResult
deriving DecidableEq, Repr

/-- Non-folded players whose hand score is maximal. Note that the comparison
is on the raw `score` field only. -/
def determineWinners (players : List ShowdownPlayer) (communityCards : List Card)
    (gameType : GameType) : List WinnerResult :=
  let activePlayers := players.filter (fun p => !p.folded)
  match activePlayers with
  | [] => []
  | [p] => [⟨p.odId, ⟨0, 0, "Last Standing", []⟩⟩]
  | _ =>
    let evaluated := activePlayers.map (fun p =>
      WinnerResult.mk p.odId (evaluateHand p.holeCards communityCards gameType))
    let maxScore :=
      match evaluated.map (fun e => e.hand.score) with
      | [] => 0
      | s :: ss => ss.foldl max s
    evaluated.filter (fun e => decide (e.hand.score = maxScore))

/-! ## anti-cheat.service.ts -/

structure ActionLog where
  odId : String
  tableId : String
  action : ActionKind
  amount : Option Int
  timestamp : Int
  serverTimestamp : Int
  isValid : Bool
  reason : Option String
deriving DecidableEq, Repr

inductive SuspiciousType
  | timing
  | pattern
  | impossible_action
  | rate_limit
deriving DecidableEq, Repr

inductive Severity
  | low
  | medium
  | high
deriving DecidableEq, Repr

structure SuspiciousActivity where
  odId : String
  activityType : SuspiciousType
  description : String
  timestamp : Int
  severity : Severity
deriving DecidableEq, Repr

structure RateRec where
  count : Nat
  windowStart : Int
deriving DecidableEq, Repr

structure AntiCheatState where
  actionLogs : List (String × List ActionLog)
  suspiciousActivities : List SuspiciousActivity
  actionCounts : List (String × RateRec)
deriving DecidableEq, Repr

def emptyAntiCheat : AntiCheatState := ⟨[], [], []⟩

def MAX_ACTIONS_PER_SECOND : Nat := 5

def RATE_LIMIT_WINDOW_MS : Int := 1000

def MIN_ACTION_TIME_MS : Int := 100

def SUSPICIOUS_FAST_ACTION_MS : Int := 200

/-- Key used for the per-(player, table) buckets. -/
def cheatKey (a : PlayerAction) : String := a.odId ++ "-" ++ a.tableId

/-- Append a suspicious activity, keeping only the last 1000 entries. -/
def flagSuspicious (st : AntiCheatState) (act : SuspiciousActivity) : AntiCheatState :=
  let l := st.suspiciousActivities ++ [act]
  { st with suspiciousActivities := if 1000 < l.length then l.drop 1 else l }

/-- Outcome of a single validator: the updated anti-cheat state, whether the
action is valid, and the rejection reason. -/
abbrev ValidationOut := AntiCheatState × Bool × Option String

/-- Rate limiting: a fixed window anchored at the first action after the
previous window expired; the 6th and later action inside a window is
rejected and flagged (severity medium). -/
def validateRateLimit (st : AntiCheatState) (a : PlayerAction) (now : Int) :
    ValidationOut :=
  let key := cheatKey a
  match alookup key st.actionCounts with
  | none =>
    ({ st with actionCounts := aset key ⟨1, now⟩ st.actionCounts }, true, none)
  | some record =>
    if RATE_LIMIT_WINDOW_MS < now - record.windowStart then
      ({ st with actionCounts := aset key ⟨1, now⟩ st.actionCounts }, true, none)
    else
      let st1 := { st with
        actionCounts := aset key ⟨record.count + 1, record.windowStart⟩ st.actionCounts }
      if MAX_ACTIONS_PER_SECOND < record.count + 1 then
        (flagSuspicious st1
          ⟨a.odId, SuspiciousType.rate_limit,
            "Exceeded 5 actions per second", now, Severity.medium⟩,
         false, some "Rate limit exceeded")
      else (st1, true, none)

/-- Timing analysis against the previous logged action of the same key. -/
def validateTiming (st : AntiCheatState) (a : PlayerAction) (now : Int) :
    ValidationOut :=
  let logs := (alookup (cheatKey a) st.actionLogs).getD []
  match logs.getLast? with
  | none => (st, true, none)
  | some lastAction =>
    let timeSinceLastAction := a.timestamp - lastAction.timestamp
    if timeSinceLastAction < MIN_ACTION_TIME_MS then
      (flagSuspicious st
        ⟨a.odId, SuspiciousType.timing, "Action too fast", now, Severity.high⟩,
       false, some "Action too fast - possible automation")
    else if timeSinceLastAction < SUSPICIOUS_FAST_ACTION_MS then
      (flagSuspicious st
        ⟨a.odId, SuspiciousType.timing, "Suspiciously fast action", now,
          Severity.low⟩,
       true, none)
    else (st, true, none)

def validatePlayerTurn (st : AntiCheatState) (state : GameState) (a : PlayerAction)
    (now : Int) : ValidationOut :=
  match state.players.findIdx? (fun p => decide (p.odId = a.odId)) with
  | none => (st, false, some "Player not in game")
  | some playerIndex =>
    if (playerIndex : Int) ≠ state.activePlayerIndex then
      (flagSuspicious st
        ⟨a.odId, SuspiciousType.impossible_action, "Attempted action out of turn",
          now, Severity.high⟩,
       false, some "Not your turn")
    else (st, true, none)

def validateActionType (st : AntiCheatState) (state : GameState) (a : PlayerAction)
    (now : Int) : ValidationOut :=
  match state.players.find? (fun p => decide (p.odId = a.odId)) with
  | none => (st, false, some "Player not found")
  | some player =>
    let toCall := state.currentHighBet - player.currentRoundBet
    if a.action = ActionKind.check ∧ 0 < toCall then
      (flagSuspicious st
        ⟨a.odId, SuspiciousType.impossible_action,
          "Attempted illegal check when call required", now, Severity.medium⟩,
       false, some "Cannot check - must call or fold")
    else (st, true, none)

/-- Bet-amount checks; note that a missing or zero amount is skipped
(`!action.amount` treats 0 as falsy). -/
def validateBetAmount (st : AntiCheatState) (state : GameState) (a : PlayerAction)
    (now : Int) : ValidationOut :=
  if a.action ≠ ActionKind.raise ∨ a.amount = none ∨ a.amount = some 0 then
    (st, true, none)
  else
    let amt := a.amount.getD 0
    match state.players.find? (fun p => decide (p.odId = a.odId)) with
    | none => (st, false, some "Player not found")
    | some player =>
      let maxBet := player.odStack + player.currentRoundBet
      if maxBet < amt then
        (flagSuspicious st
          ⟨a.odId, SuspiciousType.impossible_action,
            "Attempted to bet beyond stack", now, Severity.high⟩,
         false, some "Insufficient funds")
      else if amt ≤ state.currentHighBet then
        (st, false, some "Raise must be higher than current bet")
      else
        let raiseIncrement := amt - state.currentHighBet
        if 0 < state.lastRaiseAmount ∧ raiseIncrement < state.lastRaiseAmount then
          (st, false, some "Minimum raise too small")
        else if state.bettingType = BettingType.PL then
          let toCall := state.currentHighBet - player.currentRoundBet
          let maxRaise := state.pot + state.currentHighBet + toCall
          if maxRaise < amt then (st, false, some "Pot limit exceeded")
          else (st, true, none)
        else (st, true, none)

def validatePlayerState (st : AntiCheatState) (state : GameState) (a : PlayerAction)
    (now : Int) : ValidationOut :=
  match state.players.find? (fun p => decide (p.odId = a.odId)) with
  | none => (st, false, some "Player not found")
  | some player =>
    if player.folded then
      (flagSuspicious st
        ⟨a.odId, SuspiciousType.impossible_action, "Attempted action after folding",
          now, Severity.high⟩,
       false, some "Already folded")
    else if player.isAllIn then (st, false, some "Already all-in")
    else (st, true, none)

/-- Append the action to the per-key log, keeping only the last 100 entries. -/
def logAction (st : AntiCheatState) (a : PlayerAction) (now : Int) (isValid : Bool)
    (reason : Option String) : AntiCheatState :=
  let key := cheatKey a
  let logs := ((alookup key st.actionLogs).getD []) ++
    [⟨a.odId, a.tableId, a.action, a.amount, a.timestamp, now, isValid, reason⟩]
  let logs := if 100 < logs.length then logs.drop 1 else logs
  { st with actionLogs := aset key logs st.actionLogs }

/-- Run all six validators in order. As in the TS source, the validator
array is built eagerly, so every validator runs (and commits its side
effects) even when an earlier one already failed; the first failure then
provides the result. -/
def validateAction (st : AntiCheatState) (state : GameState) (a : PlayerAction)
    (now : Int) : ValidationOut :=
  let r1 := validateRateLimit st a now
  let r2 := validateTiming r1.1 a now
  let r3 := validatePlayerTurn r2.1 state a now
  let r4 := validateActionType r3.1 state a now
  let r5 := validateBetAmount r4.1 state a now
  let r6 := validatePlayerState r5.1 state a now
  let firstFailure :=
    if r1.2.1 = false then some r1.2.2
    else if r2.2.1 = false then some r2.2.2
    else if r3.2.1 = false then some r3.2.2
    else if r4.2.1 = false then some r4.2.2
    else if r5.2.1 = false then some r5.2.2
    else if r6.2.1 = false then some r6.2.2
    else none
  match firstFailure with
  | some reason => (logAction r6.1 a now false reason, false, reason)
  | none => (logAction r6.1 a now true none, true, none)

/-! ## game-engine.service.ts (newer revision)

The per-table entry of the engine's `games` map. Lobby-level helpers
(`generateTableId`, `ensureAvailableTable`, `createDefaultTables`,
`getAllTables`, `createUserTable`, `changeSeat`) do not affect the behaviour
the claims are about and are not modelled. -/

def MAX_RAISES_PER_ROUND : Nat := 4

def maxPlayersByGame (gameType : GameType) : Nat :=
  match gameType with
  | GameType.texas => 9
  | GameType.short_deck => 9
  | _ => 6

structure Game where
  state : GameState
  deck : List Card
  maxPlayers : Nat
  stakeLabel : String
  isSystemTable : Bool
deriving DecidableEq, Repr

def createGame (tableId : String) (gameType : GameType) (bettingType : BettingType)
    (blinds : Blinds) (stakeLabel : String) (isSystemTable : Bool) : Game :=
  { state :=
      { tableId := tableId
        stage := GameStage.waiting
        pot := 0
        communityCards := []
        currentHighBet := 0
        activePlayerIndex := -1
        dealerIndex := 0
        players := []
        blinds := blinds
        gameType := gameType
        bettingType := bettingType
        raisesThisRound := 0
        lastRaiseAmount := 0
        handNumber := 0
        lastAction := none
        winners := none }
    deck := []
    maxPlayers := maxPlayersByGame gameType
    stakeLabel := stakeLabel
    isSystemTable := isSystemTable }

/-- Stable insertion by ascending seat index, modelling the stable JS sort
`players.sort((a, b) => a.seatIndex - b.seatIndex)`. -/
def insertBySeat (p : ServerPlayer) : List ServerPlayer → List ServerPlayer
  | [] => [p]
  | q :: qs => if q.seatIndex ≤ p.seatIndex then q :: insertBySeat p qs else p :: q :: qs

def sortBySeat (ps : List ServerPlayer) : List ServerPlayer :=
  ps.foldr insertBySeat []

/-- Update the first element satisfying `pred` (models mutating the object
returned by `Array.find`). -/
def updateFirst {α : Type} (pred : α → Bool) (f : α → α) : List α → List α
  | [] => []
  | x :: xs => if pred x then f x :: xs else x :: updateFirst pred f xs

/-- Clear `hasActed` on every non-folded, non-all-in seat other than index `j`. -/
def resetOthersHasActed (j : Nat) (ps : List ServerPlayer) : List ServerPlayer :=
  mapFromIdx (fun i p =>
    if i ≠ j ∧ p.folded = false ∧ p.isAllIn = false then { p with hasActed := false }
    else p) 0 ps

/-- Walk `activePlayerIndex` past folded or all-in seats, at most
`players.length` steps (the TS loop counter bound). -/
def skipIdx (ps : List ServerPlayer) : Int → Nat → Int
  | idx, 0 => idx
  | idx, fuel + 1 =>
    match (if 0 ≤ idx then ps.get? idx.toNat else none) with
    | none => idx
    | some p =>
      if p.folded || p.isAllIn then
        skipIdx ps ((idx + 1) % (ps.length : Int)) fuel
      else idx

def skipFoldedOrAllIn (s : GameState) : GameState :=
  { s with activePlayerIndex := skipIdx s.players s.activePlayerIndex s.players.length }

def postBlind (s : GameState) (playerIndex : Nat) (amount : Int) : GameState :=
  match s.players.get? playerIndex with
  | none => s
  | some player =>
    let actualAmount := min amount player.odStack
    { s with
      players := updateAt playerIndex (fun p =>
        { p with
          odStack := p.odStack - actualAmount
          currentRoundBet := actualAmount
          totalBetThisHand := actualAmount
          isAllIn := if p.odStack - actualAmount = 0 then true else p.isAllIn })
        s.players
      pot := s.pot + actualAmount }

/-- Seats that survive the `startHand` purge: connected and with chips. -/
def alive (p : ServerPlayer) : Bool :=
  p.isConnected && decide (0 < p.odStack)

def cardsPerPlayerFor (gameType : GameType) : Nat :=
  match gameType with
  | GameType.omaha => 4
  | GameType.omaha_hi_lo => 4
  | GameType.courchevel => 5
  | GameType.pineapple => 3
  | _ => 2

/-- Reset each seat's hand-local fields and deal it `n` hole cards, in seat
order, threading the deck. -/
def dealPlayers (deck : List Card) (n : Nat) :
    List ServerPlayer → Option (List ServerPlayer × List Card)
  | [] => some ([], deck)
  | p :: ps =>
    match drawCards deck n with
    | none => none
    | some (cards, rest) =>
      match dealPlayers rest n ps with
      | none => none
      | some (ps', deck') =>
        some ({ p with
            folded := false
            hasActed := false
            currentRoundBet := 0
            totalBetThisHand := 0
            isAllIn := false
            holeCards := cards } :: ps', deck')

/-- Start a hand. Returns `none` for a thrown deck-exhaustion error; otherwise
`some (g', started)` where `started = false` models the `null` return (note
the purge of disconnected/stackless seats persists even then). -/
def startHand (g : Game) (fresh : List Card) : Option (Game × Bool) :=
  let purged := g.state.players.filter alive
  if purged.length < 2 then
    some ({ g with state := { g.state with players := purged, stage := GameStage.waiting } },
      false)
  else
    let n := purged.length
    let dealerIndex := (g.state.dealerIndex + 1) % n
    let s0 := { g.state with
      players := purged
      handNumber := g.state.handNumber + 1
      stage := GameStage.preflop
      pot := 0
      communityCards := []
      currentHighBet := 0
      raisesThisRound := 0
      lastRaiseAmount := 0
      lastAction := none
      dealerIndex := dealerIndex }
    match dealPlayers fresh (cardsPerPlayerFor s0.gameType) s0.players with
    | none => none
    | some (dealt, deckAfterDeal) =>
      let sbIndex := (dealerIndex + 1) % n
      let bbIndex := (dealerIndex + 2) % n
      let s1 := postBlind { s0 with players := dealt } sbIndex s0.blinds.small
      let s2 := postBlind s1 bbIndex s1.blinds.big
      let s3 := skipFoldedOrAllIn
        { s2 with
          currentHighBet := s2.blinds.big
          activePlayerIndex := (((bbIndex + 1) % n : Nat) : Int) }
      if s3.gameType = GameType.courchevel then
        match drawCards deckAfterDeal 1 with
        | none => none
        | some (cards, rest) =>
          some ({ g with state := { s3 with communityCards := cards }, deck := rest }, true)
      else
        some ({ g with state := s3, deck := deckAfterDeal }, true)

/-- Add a seat; reconnects a disconnected seat, rejects duplicates and full
tables, reseats on a taken seat index, and auto-starts a hand when two or
more seats are present during `waiting` (the auto-start consumes `fresh`). -/
def addPlayer (g : Game) (odId odName : String) (buyIn : Int) (seatIndex : Nat)
    (fresh : List Card) : Option (Game × Bool) :=
  match g.state.players.find? (fun p => decide (p.odId = odId)) with
  | some existing =>
    if existing.isConnected = false then
      some ({ g with state := { g.state with
        players := updateFirst (fun p => decide (p.odId = odId))
          (fun p => { p with isConnected := true }) g.state.players } }, true)
    else some (g, false)
  | none =>
    if g.maxPlayers ≤ g.state.players.length then some (g, false)
    else
      let seatTaken := g.state.players.any (fun p => decide (p.seatIndex = seatIndex))
      let freeSeat :=
        if seatTaken then
          (List.range g.maxPlayers).find? (fun i =>
            !(g.state.players.any (fun p => decide (p.seatIndex = i))))
        else some seatIndex
      match freeSeat with
      | none => some (g, false)
      | some targetSeatIndex =>
        let player : ServerPlayer :=
          { odId := odId
            odName := odName
            odStack := buyIn
            holeCards := []
            folded := false
            hasActed := false
            currentRoundBet := 0
            totalBetThisHand := 0
            seatIndex := targetSeatIndex
            isAllIn := false
            isConnected := true }
        let g1 := { g with state := { g.state with
          players := sortBySeat (g.state.players ++ [player]) } }
        if 2 ≤ g1.state.players.length ∧ g1.state.stage = GameStage.waiting then
          match startHand g1 fresh with
          | none => none
          | some (g2, _) => some (g2, true)
        else some (g1, true)

/-- Remove a seat: drops it during `waiting`, otherwise marks it folded and
disconnected so outstanding bets stay in the pot. -/
def removePlayer (g : Game) (odId : String) : Game × Bool :=
  match g.state.players.findIdx? (fun p => decide (p.odId = odId)) with
  | none => (g, false)
  | some idx =>
    if g.state.stage ≠ GameStage.waiting then
      ({ g with state := { g.state with
        players := updateAt idx (fun p => { p with folded := true, isConnected := false })
          g.state.players } }, true)
    else
      ({ g with state := { g.state with
        players := g.state.players.take idx ++ g.state.players.drop (idx + 1) } }, true)

/-- Credit the winners in order; the remainder of the integer split goes to
the first winner. A winner whose id is not seated is silently skipped. -/
def creditWinners (winAmount remainder : Int) :
    Nat → List WinnerResult → List ServerPlayer → List ServerPlayer × List WinnerEntry
  | _, [], ps => (ps, [])
  | i, w :: ws, ps =>
    let amt := winAmount + (if i = 0 then remainder else 0)
    match ps.find? (fun p => decide (p.odId = w.odId)) with
    | none => creditWinners winAmount remainder (i + 1) ws ps
    | some _ =>
      let ps' := updateFirst (fun p => decide (p.odId = w.odId))
        (fun p => { p with odStack := p.odStack + amt }) ps
      let (ps'', entries) := creditWinners winAmount remainder (i + 1) ws ps'
      (ps'', ⟨w.odId, amt, w.hand.description, w.hand.bestFive⟩ :: entries)

/-- Showdown: award the (single, undivided) pot, publish the winners, purge
disconnected or stackless seats, and fall back to `waiting` with fewer than
two seats left. -/
def endHand (g : Game) : Game :=
  let state := { g.state with stage := GameStage.showdown, activePlayerIndex := -1 }
  let activePlayers := state.players.filter (fun p => !p.folded)
  let (playersAfterAward, handWinners) :=
    match activePlayers with
    | [winner] =>
      (updateFirst (fun (p : ServerPlayer) => !p.folded)
        (fun p => { p with odStack := p.odStack + state.pot })
        state.players,
       [WinnerEntry.mk winner.odId state.pot "unopposed" []])
    | _ =>
      let winners := determineWinners
        (activePlayers.map (fun (p : ServerPlayer) => ShowdownPlayer.mk p.odId p.holeCards p.folded))
        state.communityCards state.gameType
      let winAmount : Int := state.pot.fdiv (winners.length : Int)
      let remainder := state.pot - winAmount * (winners.length : Int)
      creditWinners winAmount remainder 0 winners state.players
  let remaining := playersAfterAward.filter alive
  if remaining.length < 2 then
    { g with state := { state with
        pot := 0, winners := none, players := remaining, stage := GameStage.waiting } }
  else
    { g with state := { state with
        pot := 0, winners := some handWinners, players := remaining } }

/-- First to act post-deal: first non-folded, non-all-in seat clockwise from
the dealer. -/
def setFirstToAct (g : Game) : Game :=
  { g with state := skipFoldedOrAllIn { g.state with
      activePlayerIndex := (((g.state.dealerIndex + 1) % g.state.players.length : Nat) : Int) } }

/-- Advance to the next street: reset round-local fields, deal the street's
community cards, and set the first seat to act; the river instead ends
the hand. -/
def advanceStage (g : Game) : Option Game :=
  let s0 := { g.state with
    players := g.state.players.map (fun (p : ServerPlayer) =>
      { p with currentRoundBet := 0, hasActed := p.folded || p.isAllIn })
    currentHighBet := 0
    raisesThisRound := 0
    lastRaiseAmount := 0 }
  match s0.stage with
  | GameStage.preflop =>
    let flopCount := if s0.gameType = GameType.courchevel then 2 else 3
    match drawCards g.deck flopCount with
    | none => none
    | some (flop, rest) =>
      let community :=
        if s0.gameType = GameType.courchevel then s0.communityCards ++ flop else flop
      some (setFirstToAct { g with
        state := { s0 with stage := GameStage.flop, communityCards := community }
        deck := rest })
  | GameStage.flop =>
    match drawCards g.deck 1 with
    | none => none
    | some (turn, rest) =>
      let s1 := { s0 with stage := GameStage.turn, communityCards := s0.communityCards ++ turn }
      some (setFirstToAct { g with state := s1, deck := rest })
  | GameStage.turn =>
    match drawCards g.deck 1 with
    | none => none
    | some (river, rest) =>
      let s1 := { s0 with stage := GameStage.river, communityCards := s0.communityCards ++ river }
      some (setFirstToAct { g with state := s1, deck := rest })
  | GameStage.river => some (endHand { g with state := s0 })
  | _ => some (setFirstToAct { g with state := s0 })

/-- One iteration of the runout loop advances the stage strictly towards
`showdown`, so the TS `while` loop makes at most four iterations; `fuel`
is initialised accordingly. -/
def runOutLoop : Nat → Game → Option Game
  | 0, g => some g
  | fuel + 1, g =>
    if g.state.stage ≠ GameStage.showdown ∧ g.state.communityCards.length < 5 then
      if g.state.stage = GameStage.preflop then
        match drawCards g.deck 3 with
        | none => none
        | some (cards, rest) =>
          runOutLoop fuel { g with
            state := { g.state with
              communityCards := g.state.communityCards ++ cards
              stage := GameStage.flop }
            deck := rest }
      else
        match drawCards g.deck 1 with
        | none => none
        | some (cards, rest) =>
          let nextStage :=
            if g.state.stage = GameStage.flop then GameStage.turn
            else if g.state.stage = GameStage.turn then GameStage.river
            else GameStage.showdown
          runOutLoop fuel { g with
            state := { g.state with
              communityCards := g.state.communityCards ++ cards
              stage := nextStage }
            deck := rest }
    else some g

def runOutCards (g : Game) : Option Game :=
  (runOutLoop 4 g).map endHand

/-- Round-completion logic run after every applied action. -/
def advanceGame (g : Game) : Option Game :=
  let state := g.state
  let activePlayers := state.players.filter (fun p => !p.folded)
  if activePlayers.length = 1 then some (endHand g)
  else
    let playersToAct := state.players.filter (fun p => !p.folded && !p.isAllIn)
    let allActed := playersToAct.all (fun p => p.hasActed)
    let betsEqual := playersToAct.all (fun p =>
      decide (100 * |p.currentRoundBet - state.currentHighBet| < 1))
    if allActed && betsEqual then
      let notAllIn := state.players.filter (fun p => !p.folded && !p.isAllIn)
      if notAllIn.length ≤ 1 then runOutCards g
      else advanceStage g
    else
      some { g with state := skipFoldedOrAllIn { state with
        activePlayerIndex := (state.activePlayerIndex + 1) % (state.players.length : Int) } }

/-- The `switch (action.action)` body of `processAction`: validates and
applies the action to the state, `Except.error` modelling the early error
returns. `playerIndex` and `player` are the seat resolved by the caller. -/
def applyActionSwitch (s : GameState) (playerIndex : Nat) (player : ServerPlayer)
    (a : PlayerAction) : Except String GameState :=
  let toCall := s.currentHighBet - player.currentRoundBet
  match a.action with
  | ActionKind.fold =>
    Except.ok { s with
      players := updateAt playerIndex (fun p => { p with folded := true, hasActed := true })
        s.players
      lastAction := some ⟨playerIndex, "FOLD"⟩ }
  | ActionKind.check =>
    if 0 < toCall then Except.error "Cannot check - must call or fold"
    else
      Except.ok { s with
        players := updateAt playerIndex (fun p => { p with hasActed := true }) s.players
        lastAction := some ⟨playerIndex, "CHECK"⟩ }
  | ActionKind.call =>
    let callAmount := min toCall player.odStack
    Except.ok { s with
      players := updateAt playerIndex (fun p =>
        { p with
          odStack := p.odStack - callAmount
          currentRoundBet := p.currentRoundBet + callAmount
          totalBetThisHand := p.totalBetThisHand + callAmount
          hasActed := true
          isAllIn := if p.odStack - callAmount = 0 then true else p.isAllIn }) s.players
      pot := s.pot + callAmount
      lastAction := some ⟨playerIndex, "CALL"⟩ }
  | ActionKind.raise =>
    let raiseTotal := a.amount.getD 0
    if raiseTotal ≤ s.currentHighBet then
      Except.error "Raise must be higher than current bet"
    else
      let raiseIncrement := raiseTotal - s.currentHighBet
      if 0 < s.lastRaiseAmount ∧ raiseIncrement < s.lastRaiseAmount then
        Except.error "Minimum raise too small"
      else if MAX_RAISES_PER_ROUND ≤ s.raisesThisRound then
        Except.error "Maximum raises reached this round"
      else if s.bettingType = BettingType.PL ∧
          s.pot + s.currentHighBet + toCall < raiseTotal then
        Except.error "Pot limit exceeded"
      else
        let contribution := raiseTotal - player.currentRoundBet
        let actualContribution := min contribution player.odStack
        let ps1 := updateAt playerIndex (fun p =>
          { p with
            odStack := p.odStack - actualContribution
            currentRoundBet := p.currentRoundBet + actualContribution
            totalBetThisHand := p.totalBetThisHand + actualContribution }) s.players
        let ps2 := resetOthersHasActed playerIndex ps1
        let ps3 := updateAt playerIndex (fun p =>
          { p with hasActed := true, isAllIn := if p.odStack = 0 then true else p.isAllIn })
          ps2
        let newRaises := s.raisesThisRound + 1
        Except.ok { s with
          players := ps3
          pot := s.pot + actualContribution
          currentHighBet := player.currentRoundBet + actualContribution
          lastRaiseAmount := raiseIncrement
          raisesThisRound := newRaises
          lastAction := some ⟨playerIndex, if 1 < newRaises then "RERAISE" else "RAISE"⟩ }
  | ActionKind.allin =>
    let allInAmount := player.odStack
    let newTotal := player.currentRoundBet + allInAmount
    let sRe :=
      if s.currentHighBet < newTotal then
        { s with
          lastRaiseAmount := newTotal - s.currentHighBet
          currentHighBet := newTotal
          raisesThisRound := s.raisesThisRound + 1
          players := resetOthersHasActed playerIndex s.players }
      else s
    Except.ok { sRe with
      players := updateAt playerIndex (fun p =>
        { p with
          odStack := 0
          currentRoundBet := p.currentRoundBet + allInAmount
          totalBetThisHand := p.totalBetThisHand + allInAmount
          isAllIn := true
          hasActed := true }) sRe.players
      pot := sRe.pot + allInAmount
      lastAction := some ⟨playerIndex, "ALL IN"⟩ }

/-- Apply a player action to a table: anti-cheat validation, turn and state
guards, the action switch, then round advancement. `none` models a thrown
deck-exhaustion error while dealing community cards. -/
def processAction (ac : AntiCheatState) (now : Int) (g : Game) (a : PlayerAction) :
    AntiCheatState × Option (Game × ActionResult) :=
  let v := validateAction ac g.state a now
  let ac1 := v.1
  if v.2.1 = false then
    (ac1, some (g, ⟨false, some ((v.2.2).getD "Action rejected")⟩))
  else
    match g.state.players.findIdx? (fun p => decide (p.odId = a.odId)) with
    | none => (ac1, some (g, ⟨false, some "Player not in game"⟩))
    | some playerIndex =>
      if (playerIndex : Int) ≠ g.state.activePlayerIndex then
        (ac1, some (g, ⟨false, some "Not your turn"⟩))
      else if g.state.stage = GameStage.waiting ∨ g.state.stage = GameStage.showdown then
        (ac1, some (g, ⟨false, some "Hand not in progress"⟩))
      else
        match g.state.players.get? playerIndex with
        | none => (ac1, some (g, ⟨false, some "Player not in game"⟩))
        | some player =>
          if player.folded ∨ player.isAllIn then
            (ac1, some (g, ⟨false, some "Cannot act - folded or all-in"⟩))
          else
            match applyActionSwitch g.state playerIndex player a with
            | Except.error e => (ac1, some (g, ⟨false, some e⟩))
            | Except.ok s' =>
              match advanceGame { g with state := s' } with
              | none => (ac1, none)
              | some g' => (ac1, some (g', ⟨true, none⟩))

/-- Per-viewer projection: connected seats only, hole cards blanked except
at showdown for unfolded seats; the viewer's own cards travel in
`myHoleCards`. -/
def getClientState (g : Game) (odId : String) : ClientGameState :=
  let state := g.state
  let myPlayer := state.players.find? (fun p => decide (p.odId = odId))
  let mySeatIndex : Int :=
    match myPlayer with
    | some p => (p.seatIndex : Int)
    | none => -1
  let clientPlayers := (state.players.filter (fun p => p.isConnected)).map (fun p =>
    ClientPlayer.mk p.odId p.odName p.odStack p.folded p.hasActed p.currentRoundBet
      p.seatIndex p.isAllIn p.isConnected
      (if state.stage = GameStage.showdown ∧ p.folded = false then p.holeCards else []))
  { tableId := state.tableId
    stage := state.stage
    pot := state.pot
    communityCards := state.communityCards
    currentHighBet := state.currentHighBet
    activePlayerIndex := state.activePlayerIndex
    dealerIndex := state.dealerIndex
    players := clientPlayers
    blinds := state.blinds
    myHoleCards := (myPlayer.map (fun p => p.holeCards)).getD []
    mySeatIndex := mySeatIndex
    handNumber := state.handNumber
    gameType := state.gameType
    winners := state.winners
    lastAction := state.lastAction }

/-! ## Reachability of table states under engine operations

A system is one table's engine state together with the anti-cheat state
that gates its actions. `Reaches` closes the public engine operations
(`addPlayer`, `startHand`, `processAction`, `removePlayer`) under
sequencing; every shuffled deck handed to the engine is some permutation
of the variant's fresh deck. -/

structure Sys where
  game : Game
  cheat : AntiCheatState

inductive Reaches : Sys → Sys → Prop
  | refl (s : Sys) : Reaches s s
  | addSeat {s t : Sys} (odId odName : String) (buyIn : Int) (seatIndex : Nat)
      (fresh : List Card) (g' : Game) (ok : Bool) :
      Reaches s t →
      fresh.Perm (createDeck t.game.state.gameType) →
      addPlayer t.game odId odName buyIn seatIndex fresh = some (g', ok) →
      Reaches s ⟨g', t.cheat⟩
  | startHandOp {s t : Sys} (fresh : List Card) (g' : Game) (ok : Bool) :
      Reaches s t →
      fresh.Perm (createDeck t.game.state.gameType) →
      startHand t.game fresh = some (g', ok) →
      Reaches s ⟨g', t.cheat⟩
  | actionOp {s t : Sys} (a : PlayerAction) (now : Int) (ac' : AntiCheatState)
      (g' : Game) (res : ActionResult) :
      Reaches s t →
      processAction t.cheat now t.game a = (ac', some (g', res)) →
      Reaches s ⟨g', ac'⟩
  | removeOp {s t : Sys} (odId : String) (g' : Game) (ok : Bool) :
      Reaches s t →
      removePlayer t.game odId = (g', ok) →
      Reaches s ⟨g', t.cheat⟩

/-! ## Spec-side notions used by the claims -/

/-- Sum of `totalBetThisHand` over the seats. -/
def sumTotals (ps : List ServerPlayer) : Int :=
  (ps.map (fun p => p.totalBetThisHand)).sum

/-- The spec's invariant `pot == Σ totalBetThisHand(seat)`. -/
def potInvariant (s : GameState) : Prop :=
  s.pot = sumTotals s.players

/-- The four betting streets (the hand is running and the pot undistributed). -/
def bettingStage (st : GameStage) : Prop :=
  st = GameStage.preflop ∨ st = GameStage.flop ∨ st = GameStage.turn ∨
    st = GameStage.river

/-- Run the rate limiter alone over a sequence of `Date.now()` values for one
fixed (player, table) key, collecting the verdicts. -/
def runRate (st : AntiCheatState) (a : PlayerAction) : List Int → AntiCheatState × List Bool
  | [] => (st, [])
  | t :: ts =>
    let r := validateRateLimit st a t
    let rest := runRate r.1 a ts
    (rest.1, r.2.1 :: rest.2)

/-- Declarative acceptance of the fixed-window rate limiter the code
implements: a window opens at the first action after the previous window
expired, and within a window only the first five actions are accepted. -/
def fixedWindowAccepts : Option RateRec → List Int → List Bool
  | _, [] => []
  | none, t :: ts => true :: fixedWindowAccepts (some ⟨1, t⟩) ts
  | some r, t :: ts =>
    if RATE_LIMIT_WINDOW_MS < t - r.windowStart then
      true :: fixedWindowAccepts (some ⟨1, t⟩) ts
    else if MAX_ACTIONS_PER_SECOND < r.count + 1 then
      false :: fixedWindowAccepts (some ⟨r.count + 1, r.windowStart⟩) ts
    else
      true :: fixedWindowAccepts (some ⟨r.count + 1, r.windowStart⟩) ts

/-! ## Concrete tables and hands used by the claim instances -/

/-- A freshly seated player with the given stack and seat. -/
def mkPlayer (id : String) (stack : Int) (seat : Nat) : ServerPlayer :=
  ⟨id, id, stack, [], false, false, 0, 0, seat, false, true⟩

/-- Spec scenario 4 at showdown: A all-in for 50, B and C all-in for 200,
board giving A (pair of aces) the best hand, B (kings) second, C (queens)
third. Under the spec's side-pot rule A may win only the 150 main pot. -/
def c1Board : List Card :=
  [⟨Suit.spades, "2", 2⟩, ⟨Suit.diamonds, "7", 7⟩, ⟨Suit.clubs, "9", 9⟩,
   ⟨Suit.spades, "J", 11⟩, ⟨Suit.hearts, "3", 3⟩]

def c1A : ServerPlayer :=
  ⟨"A", "A", 0, [⟨Suit.hearts, "A", 14⟩, ⟨Suit.diamonds, "A", 14⟩],
    false, true, 50, 50, 0, true, true⟩

def c1B : ServerPlayer :=
  ⟨"B", "B", 0, [⟨Suit.clubs, "K", 13⟩, ⟨Suit.diamonds, "K", 13⟩],
    false, true, 200, 200, 1, true, true⟩

def c1C : ServerPlayer :=
  ⟨"C", "C", 0, [⟨Suit.clubs, "Q", 12⟩, ⟨Suit.diamonds, "Q", 12⟩],
    false, true, 200, 200, 2, true, true⟩

def c1Game : Game :=
  let g := createGame "t1" GameType.texas BettingType.NL ⟨1, 2⟩ "" true
  { g with state := { g.state with
      stage := GameStage.river, pot := 450, communityCards := c1Board,
      players := [c1A, c1B, c1C], handNumber := 1 } }

/-- A heads-up table, blinds 1/2, about to start a hand. -/
def c2Game : Game :=
  let g := createGame "t1" GameType.texas BettingType.NL ⟨1, 2⟩ "" true
  { g with state := { g.state with players := [mkPlayer "p1" 200 0, mkPlayer "p2" 200 1] } }

/-- A mid-hand table whose two seats both hold hole cards, used to
instantiate the projection property. -/
def c3Game : Game :=
  let g := createGame "t1" GameType.texas BettingType.NL ⟨1, 2⟩ "" true
  { g with state := { g.state with
      stage := GameStage.preflop, pot := 3,
      players :=
        [{ mkPlayer "p1" 199 0 with
            holeCards := [⟨Suit.spades, "A", 14⟩, ⟨Suit.hearts, "A", 14⟩],
            currentRoundBet := 1, totalBetThisHand := 1 },
         { mkPlayer "p2" 198 1 with
            holeCards := [⟨Suit.clubs, "K", 13⟩, ⟨Suit.diamonds, "7", 7⟩],
            currentRoundBet := 2, totalBetThisHand := 2 }],
      currentHighBet := 2, activePlayerIndex := 0, handNumber := 1 } }

/-- Spec scenario 5: Omaha hole cards with a single spade against an
all-spade royal board. -/
def c5Hole : List Card :=
  [⟨Suit.spades, "A", 14⟩, ⟨Suit.hearts, "A", 14⟩,
   ⟨Suit.clubs, "2", 2⟩, ⟨Suit.diamonds, "2", 2⟩]

def c5Board : List Card :=
  [⟨Suit.clubs, "A", 14⟩, ⟨Suit.spades, "K", 13⟩, ⟨Suit.spades, "Q", 12⟩,
   ⟨Suit.spades, "J", 11⟩, ⟨Suit.spades, "10", 10⟩]

/-- Spec scenario 3 on the flop: A has bet 100 (`hasActed`), B holds 130
and is about to move all-in for an increment of 30 < min-raise 100. -/
def c6A : ServerPlayer :=
  ⟨"A", "A", 398, [⟨Suit.hearts, "K", 13⟩, ⟨Suit.diamonds, "K", 13⟩],
    false, true, 100, 102, 0, false, true⟩

def c6B : ServerPlayer :=
  ⟨"B", "B", 130, [⟨Suit.hearts, "Q", 12⟩, ⟨Suit.diamonds, "Q", 12⟩],
    false, false, 0, 2, 1, false, true⟩

def c6Board : List Card :=
  [⟨Suit.spades, "2", 2⟩, ⟨Suit.diamonds, "7", 7⟩, ⟨Suit.clubs, "9", 9⟩]

def c6Game : Game :=
  let g := createGame "t1" GameType.texas BettingType.NL ⟨1, 2⟩ "" true
  { g with state := { g.state with
      stage := GameStage.flop, pot := 104, communityCards := c6Board,
      currentHighBet := 100, lastRaiseAmount := 100, raisesThisRound := 1,
      activePlayerIndex := 1, players := [c6A, c6B], handNumber := 1 } }

def c6Action : PlayerAction := ⟨"B", "t1", ActionKind.allin, none, 50000⟩

def c6Out : AntiCheatState × Option (Game × ActionResult) :=
  processAction emptyAntiCheat 50000 c6Game c6Action

/-- Trace reaching `raisesThisRound = 5`: two players play a quick first
hand, four more sit down, and in the second hand five successive all-ins
with growing stacks each count as a raise. -/
def c7g0 : Game := createGame "t1" GameType.texas BettingType.NL ⟨1, 2⟩ "NL200" true

def c7deck : List Card := createDeck GameType.texas

def c7g1 : Game := ((addPlayer c7g0 "p1" "p1" 100 0 c7deck).getD (c7g0, false)).1

def c7g2 : Game := ((addPlayer c7g1 "p2" "p2" 200 1 c7deck).getD (c7g1, false)).1

def c7a3 : PlayerAction := ⟨"p1", "t1", ActionKind.fold, none, 10000⟩

def c7pa3 : AntiCheatState × Option (Game × ActionResult) :=
  processAction emptyAntiCheat 10000 c7g2 c7a3

def c7ac3 : AntiCheatState := c7pa3.1

def c7g3 : Game := ((c7pa3.2).getD (c7g2, ⟨false, none⟩)).1

def c7g4 : Game := ((addPlayer c7g3 "p3" "p3" 300 2 c7deck).getD (c7g3, false)).1

def c7g5 : Game := ((addPlayer c7g4 "p4" "p4" 400 3 c7deck).getD (c7g4, false)).1

def c7g6 : Game := ((addPlayer c7g5 "p5" "p5" 500 4 c7deck).getD (c7g5, false)).1

def c7g7 : Game := ((addPlayer c7g6 "p6" "p6" 10 5 c7deck).getD (c7g6, false)).1

def c7g8 : Game := ((startHand c7g7 c7deck).getD (c7g7, false)).1

def allinAct (id : String) (ts : Int) : PlayerAction := ⟨id, "t1", ActionKind.allin, none, ts⟩

def c7pa9 : AntiCheatState × Option (Game × ActionResult) :=
  processAction c7ac3 20000 c7g8 (allinAct "p6" 20000)

def c7ac9 : AntiCheatState := c7pa9.1

def c7g9 : Game := ((c7pa9.2).getD (c7g8, ⟨false, none⟩)).1

def c7pa10 : AntiCheatState × Option (Game × ActionResult) :=
  processAction c7ac9 21500 c7g9 (allinAct "p1" 21500)

def c7ac10 : AntiCheatState := c7pa10.1

def c7g10 : Game := ((c7pa10.2).getD (c7g9, ⟨false, none⟩)).1

def c7pa11 : AntiCheatState × Option (Game × ActionResult) :=
  processAction c7ac10 23000 c7g10 (allinAct "p2" 23000)

def c7ac11 : AntiCheatState := c7pa11.1

def c7g11 : Game := ((c7pa11.2).getD (c7g10, ⟨false, none⟩)).1

def c7pa12 : AntiCheatState × Option (Game × ActionResult) :=
  processAction c7ac11 24500 c7g11 (allinAct "p3" 24500)

def c7ac12 : AntiCheatState := c7pa12.1

def c7g12 : Game := ((c7pa12.2).getD (c7g11, ⟨false, none⟩)).1

def c7pa13 : AntiCheatState × Option (Game × ActionResult) :=
  processAction c7ac12 26000 c7g12 (allinAct "p4" 26000)

def c7ac13 : AntiCheatState := c7pa13.1

def c7g13 : Game := ((c7pa13.2).getD (c7g12, ⟨false, none⟩)).1

/-- Short-deck showdown of spec scenario 6's kind: a jack-high flush
against aces full of sixes. -/
def c4Board : List Card :=
  [⟨Suit.spades, "6", 6⟩, ⟨Suit.spades, "7", 7⟩, ⟨Suit.spades, "9", 9⟩,
   ⟨Suit.hearts, "A", 14⟩, ⟨Suit.diamonds, "A", 14⟩]

def c4FlushHole : List Card := [⟨Suit.spades, "J", 11⟩, ⟨Suit.spades, "8", 8⟩]

def c4FullHouseHole : List Card := [⟨Suit.clubs, "A", 14⟩, ⟨Suit.hearts, "6", 6⟩]

/-- One connected seat and one disconnected seat: `startHand` fails for
lack of players but the purge of the disconnected seat persists. -/
def c10Game : Game :=
  let g := createGame "t1" GameType.texas BettingType.NL ⟨1, 2⟩ "" true
  { g with state := { g.state with
      players := [mkPlayer "p1" 200 0, { mkPlayer "p2" 200 1 with isConnected := false }] } }

/-- Action template and `Date.now()` sequences for the rate limiter. -/
def c9Action : PlayerAction := ⟨"p1", "t1", ActionKind.call, none, 0⟩

/-- Seven actions, six of them inside the rolling second ending at 1050,
yet all accepted because the fixed window resets at 1001. -/
def c9Times : List Int := [0, 600, 700, 800, 900, 1001, 1050]

/-- A burst of seven actions inside one fixed window: the 6th and 7th are
rejected and flagged. -/
def c9Burst : List Int := [0, 100, 200, 300, 400, 500, 600]

/-- Betting state used to witness a successful raise under the cap. -/
def c7WGame : Game :=
  let g := createGame "t1" GameType.texas BettingType.NL ⟨1, 2⟩ "" true
  { g with state := { g.state with
      stage := GameStage.flop, pot := 4,
      players := [{ mkPlayer "A" 98 0 with totalBetThisHand := 2 },
                  { mkPlayer "B" 98 1 with totalBetThisHand := 2 }],
      currentHighBet := 0, activePlayerIndex := 0, handNumber := 1 } }

def c7WAction : PlayerAction := ⟨"A", "t1", ActionKind.raise, some 10, 7000⟩

def c7WOut : AntiCheatState × Option (Game × ActionResult) :=
  processAction emptyAntiCheat 7000 c7WGame c7WAction

def c7WG : Game := ((c7WOut.2).getD (c7WGame, ⟨false, none⟩)).1

def c8Start : Game :=
  ((startHand c2Game (createDeck GameType.texas)).getD (c2Game, false)).1

def c8After : Game := ((c6Out.2).getD (c6Game, ⟨false, none⟩)).1

/-! ## Claim theorems -/

/-- Claim C1. At the scenario-4 showdown (A all-in for 50 with the best
hand, B and C all-in for 200), `endHand` awards the entire 450 pot to A in
one undivided award, with no side-pot layering: B and C bust. -/
theorem endHand_ignores_side_pots :
    c1A.totalBetThisHand = 50 ∧ c1B.totalBetThisHand = 200 ∧
    c1C.totalBetThisHand = 200 ∧ c1Game.state.pot = 450 ∧
    (endHand c1Game).state.players.map (fun p => (p.odId, p.odStack)) = [("A", 450)] ∧
    (endHand c1Game).state.pot = 0 := by decide

/-- Claim C2. Starting a hand at a two-seat table with blinds 1/2 leaves the
dealer (seat index 1 after rotation) holding `currentRoundBet = 2`, the big
blind; the non-dealer posts the small blind. -/
theorem startHand_heads_up_dealer_posts_big_blind :
    c2Game.state.blinds.small = 1 ∧ c2Game.state.blinds.big = 2 ∧
    (startHand c2Game (createDeck GameType.texas)).map (fun r =>
      (r.2, r.1.state.dealerIndex,
        r.1.state.players.map (fun p => (p.odId, p.currentRoundBet)))) =
      some (true, 1, [("p1", 1), ("p2", 2)]) := by decide

/-- Claim C4. In short deck the evaluator ranks the flush (rank 7) above the
full house (rank 6), but `determineWinners` compares raw scores, and the
full-house score 700 + trips overlaps the flush score 700 + high card: aces
full (714) beats the jack-high flush (711), so the full-house holder wins. -/
theorem determineWinners_short_deck_full_house_beats_flush :
    (evaluateHand c4FlushHole c4Board GameType.short_deck).rank = 7 ∧
    (evaluateHand c4FlushHole c4Board GameType.short_deck).description = "Flush" ∧
    (evaluateHand c4FlushHole c4Board GameType.short_deck).score = 711 ∧
    (evaluateHand c4FullHouseHole c4Board GameType.short_deck).rank = 6 ∧
    (evaluateHand c4FullHouseHole c4Board GameType.short_deck).description = "Full House" ∧
    (evaluateHand c4FullHouseHole c4Board GameType.short_deck).score = 714 ∧
    (determineWinners [⟨"F", c4FlushHole, false⟩, ⟨"H", c4FullHouseHole, false⟩]
      c4Board GameType.short_deck).map (fun w => w.odId) = ["H"] := by decide

/-- Claim C6 (counterexample). B's all-in for 130 against a high bet of 100
with min-raise 100 is an under-raise (increment 30), is accepted, and resets
the original raiser A's `hasActed` to `false` - the action is re-opened,
contradicting the claim that `hasActed` stays `true`. -/
theorem allin_under_raise_reopens_counterexample :
    c6A.hasActed = true ∧
    c6B.currentRoundBet + c6B.odStack - c6Game.state.currentHighBet = 30 ∧
    c6Game.state.lastRaiseAmount = 100 ∧
    (c6Out.2.map (fun r => (r.2.success,
      r.1.state.players.map (fun p => (p.odId, p.hasActed))))) =
      some (true, [("A", false), ("B", true)]) := by decide

/-- Claim C3. Outside showdown, every seat entry of a viewer projection has
an empty `holeCards` list, regardless of viewer. -/
theorem getClientState_hides_hole_cards (g : Game) (viewer : String)
    (h : g.state.stage ≠ GameStage.showdown) :
    ∀ cp ∈ (getClientState g viewer).players, cp.holeCards = [] := by
  intro cp hm
  unfold getClientState at hm
  dsimp only at hm
  rw [List.mem_map] at hm
  obtain ⟨p, _, rfl⟩ := hm
  dsimp only
  rw [if_neg]
  intro hcon
  exact h hcon.1

/-- Claim C3 (witness). The projection of a concrete pre-flop table for
viewer "p1" contains no hole cards in any seat entry, although both seats
hold cards server-side. -/
theorem getClientState_hides_hole_cards_witness :
    c3Game.state.stage ≠ GameStage.showdown ∧
    (c3Game.state.players.map (fun p => p.holeCards.length)) = [2, 2] ∧
    ∀ cp ∈ (getClientState c3Game "p1").players, cp.holeCards = [] :=
  ⟨by decide, by decide, getClientState_hides_hole_cards c3Game "p1" (by decide)⟩

/-- Claim C10. When fewer than two seats survive the purge of disconnected
or stackless seats, `startHand` reports failure and resets the stage to
`waiting`, but the purged seat list persists: the failure is not atomic. -/
theorem startHand_purge_not_rolled_back (g : Game) (fresh : List Card)
    (h : (g.state.players.filter alive).length < 2) :
    ∃ g', startHand g fresh = some (g', false) ∧
      g'.state.players = g.state.players.filter alive ∧
      g'.state.stage = GameStage.waiting := by
  refine ⟨{ g with state := { g.state with
    players := g.state.players.filter alive, stage := GameStage.waiting } }, ?_, rfl, rfl⟩
  unfold startHand
  rw [if_pos h]

/-- Claim C10 (witness). A table with one connected and one disconnected
seat: `startHand` fails, and the table is left with only the connected seat. -/
theorem startHand_purge_not_rolled_back_witness :
    c10Game.state.players.length = 2 ∧
    (c10Game.state.players.filter alive).length < 2 ∧
    ∃ g', startHand c10Game (createDeck GameType.texas) = some (g', false) ∧
      g'.state.players = c10Game.state.players.filter alive ∧
      g'.state.stage = GameStage.waiting :=
  ⟨by decide, by decide,
    startHand_purge_not_rolled_back c10Game (createDeck GameType.texas) (by decide)⟩

theorem updateBest_eq_or (b r : HandResult) : updateBest b r = b ∨ updateBest b r = r := by
  unfold updateBest
  split
  · exact Or.inr rfl
  · exact Or.inl rfl

theorem updateBest_of_rank_lt (b r : HandResult) (h : b.rank < r.rank) :
    updateBest b r = r := by
  unfold updateBest
  rw [if_pos (Or.inl h)]

theorem lowCategories_rank_pos (sorted : List Card) (isStraight : Bool)
    (straightHigh : Int) (threes pairs : List Int) :
    1 ≤ (lowCategories sorted isStraight straightHigh threes pairs).rank := by
  unfold lowCategories
  repeat' split
  all_goals norm_num

theorem straightFlushResult_rank_pos (flushCards : List Card) (r : HandResult)
    (h : straightFlushResult flushCards = some r) : 1 ≤ r.rank := by
  unfold straightFlushResult at h
  split at h
  · split at h <;> (injection h with h'; subst h'; norm_num)
  · exact absurd h (by simp)

theorem evaluate5CardHand_rank_pos (cards : List Card) (gameType : GameType) :
    1 ≤ (evaluate5CardHand cards gameType).rank := by
  unfold evaluate5CardHand
  dsimp only
  split
  case h_1 r hr =>
    split at hr
    · exact straightFlushResult_rank_pos _ _ hr
    · exact absurd hr (by simp)
  case h_2 =>
    repeat' split
    all_goals first
      | exact lowCategories_rank_pos _ _ _ _ _
      | norm_num

theorem getCombinations_ne_nil {α : Type} :
    ∀ (l : List α) (k : Nat), k ≤ l.length → getCombinations l k ≠ [] := by
  intro l
  induction l with
  | nil =>
    intro k hk
    have hk0 : k = 0 := Nat.le_zero.mp hk
    subst hk0
    simp [getCombinations]
  | cons x xs ih =>
    intro k hk
    match k with
    | 0 => simp [getCombinations]
    | k + 1 =>
      intro hcon
      unfold getCombinations at hcon
      rw [List.append_eq_nil] at hcon
      have h1 := hcon.1
      rw [List.map_eq_nil_iff] at h1
      exact ih k (Nat.le_of_succ_le_succ (by simpa using hk)) h1

theorem foldl_preserves {α β : Type} (P : β → Prop) (step : β → α → β) :
    ∀ (l : List α) (acc : β), P acc → (∀ b x, x ∈ l → P b → P (step b x)) →
      P (l.foldl step acc)
  | [], _, hacc, _ => hacc
  | x :: xs, acc, hacc, hstep =>
    foldl_preserves P step xs (step acc x) (hstep acc x (List.mem_cons_self x xs) hacc)
      (fun b y hy hb => hstep b y (List.mem_cons_of_mem x hy) hb)

theorem foldl_updateBest_from_init {α : Type} (P : HandResult → Prop) (f : α → HandResult)
    (l : List α) (hne : l ≠ [])
    (hrank : ∀ x ∈ l, 1 ≤ (f x).rank) (hP : ∀ x ∈ l, P (f x)) :
    P (l.foldl (fun acc x => updateBest acc (f x)) initialBest) := by
  match l, hne with
  | x :: xs, _ =>
    rw [List.foldl_cons]
    have h1 : updateBest initialBest (f x) = f x :=
      updateBest_of_rank_lt _ _
        (lt_of_lt_of_le (by norm_num [initialBest]) (hrank x (List.mem_cons_self x xs)))
    rw [h1]
    exact foldl_preserves P _ xs (f x) (hP x (List.mem_cons_self x xs))
      (fun b y hy hb => by
        rcases updateBest_eq_or b (f y) with h | h
        · rw [h]; exact hb
        · rw [h]; exact hP y (List.mem_cons_of_mem x hy))

/-- Claim C5. For the Omaha family the evaluator's best hand is always the
5-card evaluation of exactly two hole cards and exactly three board cards
from the enumerated combinations. -/
theorem evaluateHand_omaha_uses_two_hole_three_board
    (gameType : GameType) (holeCards communityCards : List Card)
    (hgt : gameType = GameType.omaha ∨ gameType = GameType.omaha_hi_lo ∨
      gameType = GameType.courchevel)
    (hh : 2 ≤ holeCards.length) (hb : 3 ≤ communityCards.length) :
    ∃ h ∈ getCombinations holeCards 2, ∃ b ∈ getCombinations communityCards 3,
      evaluateHand holeCards communityCards gameType =
        evaluate5CardHand (h ++ b) gameType := by
  unfold evaluateHand
  rw [if_pos hgt, if_neg (by omega : ¬(holeCards.length < 2 ∨ communityCards.length < 3))]
  obtain ⟨h0, hs, hHC⟩ :=
    List.exists_cons_of_ne_nil (getCombinations_ne_nil holeCards 2 hh)
  have hBCne := getCombinations_ne_nil communityCards 3 hb
  rw [hHC, List.foldl_cons]
  refine foldl_preserves
    (fun res => ∃ h ∈ h0 :: hs, ∃ b ∈ getCombinations communityCards 3,
      res = evaluate5CardHand (h ++ b) gameType)
    (fun acc h => (getCombinations communityCards 3).foldl
      (fun acc2 b => updateBest acc2 (evaluate5CardHand (h ++ b) gameType)) acc)
    hs _ ?_ ?_
  · exact foldl_updateBest_from_init
      (fun res => ∃ h ∈ h0 :: hs, ∃ b ∈ getCombinations communityCards 3,
        res = evaluate5CardHand (h ++ b) gameType)
      (fun b => evaluate5CardHand (h0 ++ b) gameType)
      (getCombinations communityCards 3) hBCne
      (fun b _ => evaluate5CardHand_rank_pos _ _)
      (fun b hbmem => ⟨h0, List.mem_cons_self h0 hs, b, hbmem, rfl⟩)
  · intro acc h hmem hacc
    exact foldl_preserves
      (fun res => ∃ h ∈ h0 :: hs, ∃ b ∈ getCombinations communityCards 3,
        res = evaluate5CardHand (h ++ b) gameType)
      (fun acc2 b => updateBest acc2 (evaluate5CardHand (h ++ b) gameType))
      (getCombinations communityCards 3) acc hacc
      (fun b x hx hbP => by
        dsimp only
        rcases updateBest_eq_or b (evaluate5CardHand (h ++ x) gameType) with he | he
        · rw [he]; exact hbP
        · rw [he]; exact ⟨h, List.mem_cons_of_mem h0 hmem, x, hx, rfl⟩)

/-- Claim C5 (witness). Spec scenario 5: one spade in hand against an
all-spade royal board yields three aces, and the result is the 5-card
evaluation of some two-hole/three-board combination - never the royal
flush that would need one hole card. -/
theorem evaluateHand_omaha_uses_two_hole_three_board_witness :
    2 ≤ c5Hole.length ∧ 3 ≤ c5Board.length ∧
    (evaluateHand c5Hole c5Board GameType.omaha).description = "Three of a Kind" ∧
    ∃ h ∈ getCombinations c5Hole 2, ∃ b ∈ getCombinations c5Board 3,
      evaluateHand c5Hole c5Board GameType.omaha =
        evaluate5CardHand (h ++ b) GameType.omaha :=
  ⟨by decide, by decide, by decide,
    evaluateHand_omaha_uses_two_hole_three_board GameType.omaha c5Hole c5Board
      (Or.inl rfl) (by decide) (by decide)⟩

theorem alookup_aset_self {β : Type} (k : String) (v : β) :
    ∀ m : List (String × β), alookup k (aset k v m) = some v := by
  intro m
  induction m with
  | nil => simp [aset, alookup]
  | cons kv rest ih =>
    obtain ⟨k', v'⟩ := kv
    by_cases h : k' = k
    · simp [aset, alookup, h]
    · simp [aset, alookup, h, ih]

theorem flagSuspicious_mem (st : AntiCheatState) (act f : SuspiciousActivity)
    (h : f ∈ (flagSuspicious st act).suspiciousActivities) :
    f ∈ st.suspiciousActivities ∨ f = act := by
  unfold flagSuspicious at h
  dsimp only at h
  have h2 : f ∈ st.suspiciousActivities ++ [act] := by
    split at h
    · exact List.mem_of_mem_drop h
    · exact h
  rcases List.mem_append.mp h2 with h3 | h3
  · exact Or.inl h3
  · exact Or.inr (List.mem_singleton.mp h3)

theorem runRate_fixed_window_aux (a : PlayerAction) :
    ∀ (times : List Int) (st : AntiCheatState),
      (∀ f ∈ st.suspiciousActivities,
        f.activityType = SuspiciousType.rate_limit ∧ f.severity = Severity.medium ∧
          f.odId = a.odId) →
      (runRate st a times).2 =
        fixedWindowAccepts (alookup (cheatKey a) st.actionCounts) times ∧
      (∀ f ∈ (runRate st a times).1.suspiciousActivities,
        f.activityType = SuspiciousType.rate_limit ∧ f.severity = Severity.medium ∧
          f.odId = a.odId) := by
  intro times
  induction times with
  | nil =>
    intro st hsusp
    refine ⟨?_, hsusp⟩
    cases alookup (cheatKey a) st.actionCounts <;> rfl
  | cons t ts ih =>
    intro st hsusp
    simp only [runRate]
    cases hl : alookup (cheatKey a) st.actionCounts with
    | none =>
      simp only [validateRateLimit, hl]
      have hrec := ih
        ⟨st.actionLogs, st.suspiciousActivities, aset (cheatKey a) ⟨1, t⟩ st.actionCounts⟩
        hsusp
      dsimp only at hrec
      rw [alookup_aset_self] at hrec
      simp only [fixedWindowAccepts]
      exact ⟨by rw [hrec.1], hrec.2⟩
    | some record =>
      simp only [validateRateLimit, hl]
      by_cases hw : RATE_LIMIT_WINDOW_MS < t - record.windowStart
      · rw [if_pos hw]
        have hrec := ih
          ⟨st.actionLogs, st.suspiciousActivities, aset (cheatKey a) ⟨1, t⟩ st.actionCounts⟩
          hsusp
        dsimp only at hrec
        rw [alookup_aset_self] at hrec
        simp only [fixedWindowAccepts, if_pos hw]
        exact ⟨by rw [hrec.1], hrec.2⟩
      · rw [if_neg hw]
        by_cases hc : MAX_ACTIONS_PER_SECOND < record.count + 1
        · rw [if_pos hc]
          have hsusp2 : ∀ f ∈ (flagSuspicious
              ⟨st.actionLogs, st.suspiciousActivities,
                aset (cheatKey a) ⟨record.count + 1, record.windowStart⟩ st.actionCounts⟩
              ⟨a.odId, SuspiciousType.rate_limit, "Exceeded 5 actions per second", t,
                Severity.medium⟩).suspiciousActivities,
              f.activityType = SuspiciousType.rate_limit ∧ f.severity = Severity.medium ∧
                f.odId = a.odId := by
            intro f hf
            rcases flagSuspicious_mem _ _ _ hf with h | h
            · exact hsusp f h
            · subst h; exact ⟨rfl, rfl, rfl⟩
          have hrec := ih _ hsusp2
          rw [show (flagSuspicious
              ⟨st.actionLogs, st.suspiciousActivities,
                aset (cheatKey a) ⟨record.count + 1, record.windowStart⟩ st.actionCounts⟩
              ⟨a.odId, SuspiciousType.rate_limit, "Exceeded 5 actions per second", t,
                Severity.medium⟩).actionCounts =
            aset (cheatKey a) ⟨record.count + 1, record.windowStart⟩ st.actionCounts from rfl,
            alookup_aset_self] at hrec
          simp only [fixedWindowAccepts, if_neg hw, if_pos hc]
          exact ⟨by rw [hrec.1], hrec.2⟩
        · rw [if_neg hc]
          have hrec := ih
            ⟨st.actionLogs, st.suspiciousActivities,
              aset (cheatKey a) ⟨record.count + 1, record.windowStart⟩ st.actionCounts⟩
            hsusp
          dsimp only at hrec
          rw [alookup_aset_self] at hrec
          simp only [fixedWindowAccepts, if_neg hw, if_neg hc]
          exact ⟨by rw [hrec.1], hrec.2⟩

/-- Claim C9 (amended). The rate limiter implements a fixed one-second
window anchored at the first action after the previous window expired, not
a rolling window: over any call sequence for one (player, table) key the
verdicts coincide with the fixed-window automaton, and every suspicious
flag it records is a medium-severity rate-limit flag for that player. -/
theorem validateRateLimit_fixed_window (a : PlayerAction) (times : List Int) :
    (runRate emptyAntiCheat a times).2 = fixedWindowAccepts none times ∧
    ∀ f ∈ (runRate emptyAntiCheat a times).1.suspiciousActivities,
      f.activityType = SuspiciousType.rate_limit ∧ f.severity = Severity.medium ∧
        f.odId = a.odId := by
  have h := runRate_fixed_window_aux a times emptyAntiCheat
    (by intro f hf; simp [emptyAntiCheat] at hf)
  rw [show alookup (cheatKey a) emptyAntiCheat.actionCounts = none from rfl] at h
  exact h

/-- Claim C9 (counterexample). Seven actions whose last six fall inside the
rolling second ending at time 1050 are all accepted: the fixed window
resets at t = 1001, so the rolling-window budget of 5 is exceeded without a
rejection. -/
theorem rate_limit_not_rolling_counterexample :
    MAX_ACTIONS_PER_SECOND <
      (c9Times.filter (fun t => decide (1050 - t < 1000))).length ∧
    (c9Times.filter (fun t => decide (1050 - t < 1000))).length = 6 ∧
    (runRate emptyAntiCheat c9Action c9Times).2 =
      [true, true, true, true, true, true, true] := by decide

/-- Claim C9 (witness). A burst of seven actions inside one window: the
6th and 7th are rejected, matching the fixed-window automaton, and the
recorded flags are medium-severity rate-limit flags. -/
theorem validateRateLimit_fixed_window_witness :
    (runRate emptyAntiCheat c9Action c9Burst).2 =
      [true, true, true, true, true, false, false] ∧
    (runRate emptyAntiCheat c9Action c9Burst).2 = fixedWindowAccepts none c9Burst ∧
    ∀ f ∈ (runRate emptyAntiCheat c9Action c9Burst).1.suspiciousActivities,
      f.activityType = SuspiciousType.rate_limit ∧ f.severity = Severity.medium ∧
        f.odId = c9Action.odId :=
  ⟨by decide, (validateRateLimit_fixed_window c9Action c9Burst).1,
    (validateRateLimit_fixed_window c9Action c9Burst).2⟩

theorem endHand_raises (g : Game) :
    (endHand g).state.raisesThisRound = g.state.raisesThisRound := by
  unfold endHand
  dsimp only
  repeat' split
  all_goals rfl

theorem runOutLoop_raises :
    ∀ (fuel : Nat) (g g' : Game), runOutLoop fuel g = some g' →
      g'.state.raisesThisRound = g.state.raisesThisRound := by
  intro fuel
  induction fuel with
  | zero =>
    intro g g' h
    unfold runOutLoop at h
    cases h
    rfl
  | succ n ih =>
    intro g g' h
    unfold runOutLoop at h
    split at h
    · split at h
      · split at h
        · exact absurd h (by simp)
        · exact (ih _ _ h).trans rfl
      · split at h
        · exact absurd h (by simp)
        · exact (ih _ _ h).trans rfl
    · cases h
      rfl

theorem advanceStage_raises_le (g g' : Game) (h : advanceStage g = some g') :
    g'.state.raisesThisRound ≤ 4 := by
  unfold advanceStage at h
  dsimp only at h
  split at h
  all_goals try split at h
  all_goals cases h
  all_goals simp only [endHand_raises, setFirstToAct, skipFoldedOrAllIn]
  all_goals omega

theorem advanceGame_raises_le (g g' : Game) (h4 : g.state.raisesThisRound ≤ 4)
    (h : advanceGame g = some g') : g'.state.raisesThisRound ≤ 4 := by
  unfold advanceGame at h
  dsimp only at h
  split at h
  · cases h
    rw [endHand_raises]
    exact h4
  · split at h
    · split at h
      · unfold runOutCards at h
        cases hr : runOutLoop 4 g with
        | none => rw [hr] at h; cases h
        | some g1 =>
          rw [hr] at h
          simp only [Option.map] at h
          cases h
          rw [endHand_raises, runOutLoop_raises 4 g g1 hr]
          exact h4
      · exact advanceStage_raises_le g g' h
    · cases h
      exact h4

theorem applyActionSwitch_raise (s : GameState) (j : Nat) (p : ServerPlayer)
    (a : PlayerAction) (s' : GameState) (ha : a.action = ActionKind.raise)
    (h : applyActionSwitch s j p a = Except.ok s') :
    s'.raisesThisRound = s.raisesThisRound + 1 ∧
      s.raisesThisRound < MAX_RAISES_PER_ROUND := by
  unfold applyActionSwitch at h
  rw [ha] at h
  dsimp only at h
  split at h
  · exact absurd h (by simp)
  · split at h
    · exact absurd h (by simp)
    · split at h
      · exact absurd h (by simp)
      · split at h
        · exact absurd h (by simp)
        · cases h
          exact ⟨rfl, by omega⟩

/-- Claim C7 (amended). A raise action never takes `raisesThisRound` past
the cap: a successful raise leaves at most 4 raises recorded, and once the
cap is reached every further raise is rejected. (All-ins are exempt; see
the counterexample.) -/
theorem raise_respects_cap (ac : AntiCheatState) (now : Int) (g : Game)
    (a : PlayerAction) (ac' : AntiCheatState) (g' : Game) (res : ActionResult)
    (ha : a.action = ActionKind.raise)
    (h : processAction ac now g a = (ac', some (g', res))) :
    (res.success = true → g'.state.raisesThisRound ≤ 4) ∧
    (MAX_RAISES_PER_ROUND ≤ g.state.raisesThisRound → res.success = false) := by
  unfold processAction at h
  dsimp only at h
  split at h
  · simp only [Prod.mk.injEq, Option.some.injEq] at h
    obtain ⟨-, -, hres⟩ := h
    subst hres
    exact ⟨fun hcon => absurd hcon (by simp), fun _ => rfl⟩
  · split at h
    · simp only [Prod.mk.injEq, Option.some.injEq] at h
      obtain ⟨-, -, hres⟩ := h
      subst hres
      exact ⟨fun hcon => absurd hcon (by simp), fun _ => rfl⟩
    · split at h
      · simp only [Prod.mk.injEq, Option.some.injEq] at h
        obtain ⟨-, -, hres⟩ := h
        subst hres
        exact ⟨fun hcon => absurd hcon (by simp), fun _ => rfl⟩
      · split at h
        · simp only [Prod.mk.injEq, Option.some.injEq] at h
          obtain ⟨-, -, hres⟩ := h
          subst hres
          exact ⟨fun hcon => absurd hcon (by simp), fun _ => rfl⟩
        · split at h
          · simp only [Prod.mk.injEq, Option.some.injEq] at h
            obtain ⟨-, -, hres⟩ := h
            subst hres
            exact ⟨fun hcon => absurd hcon (by simp), fun _ => rfl⟩
          · split at h
            · simp only [Prod.mk.injEq, Option.some.injEq] at h
              obtain ⟨-, -, hres⟩ := h
              subst hres
              exact ⟨fun hcon => absurd hcon (by simp), fun _ => rfl⟩
            · rename_i playerIndex hfi hturn hstage player hget hpfa
              split at h
              · simp only [Prod.mk.injEq, Option.some.injEq] at h
                obtain ⟨-, -, hres⟩ := h
                subst hres
                exact ⟨fun hcon => absurd hcon (by simp), fun _ => rfl⟩
              · rename_i s' hok
                obtain ⟨hinc, hlt⟩ := applyActionSwitch_raise _ _ _ _ _ ha hok
                split at h
                · simp only [Prod.mk.injEq] at h
                  exact absurd h.2 (by simp)
                · rename_i g2 hadv
                  simp only [Prod.mk.injEq, Option.some.injEq] at h
                  obtain ⟨-, hg, hres⟩ := h
                  subst hg
                  subst hres
                  have hlt4 : g.state.raisesThisRound < 4 := hlt
                  constructor
                  · intro _
                    refine advanceGame_raises_le _ _ ?_ hadv
                    dsimp only
                    rw [hinc]
                    omega
                  · intro hcap
                    exact absurd hcap (Nat.not_le.mpr hlt4)

/-- Claim C7 (counterexample). A table state with `raisesThisRound = 5` is
reachable from a fresh table by engine operations alone: five successive
all-ins with growing stacks each count as a raise, and the all-in branch
never checks the cap. -/
theorem raisesThisRound_cap_exceeded_counterexample :
    ∃ t : Sys, Reaches ⟨c7g0, emptyAntiCheat⟩ t ∧
      t.game.state.raisesThisRound = 5 := by
  refine ⟨⟨c7g13, c7ac13⟩, ?_, by decide⟩
  have r1 : Reaches ⟨c7g0, emptyAntiCheat⟩ ⟨c7g1, emptyAntiCheat⟩ :=
    Reaches.addSeat "p1" "p1" 100 0 c7deck c7g1 true (Reaches.refl _)
      (List.Perm.refl _) (by decide)
  have r2 : Reaches ⟨c7g0, emptyAntiCheat⟩ ⟨c7g2, emptyAntiCheat⟩ :=
    Reaches.addSeat "p2" "p2" 200 1 c7deck c7g2 true r1 (List.Perm.refl _) (by decide)
  have r3 : Reaches ⟨c7g0, emptyAntiCheat⟩ ⟨c7g3, c7ac3⟩ :=
    Reaches.actionOp c7a3 10000 c7ac3 c7g3 ⟨true, none⟩ r2 (by decide)
  have r4 : Reaches ⟨c7g0, emptyAntiCheat⟩ ⟨c7g4, c7ac3⟩ :=
    Reaches.addSeat "p3" "p3" 300 2 c7deck c7g4 true r3 (List.Perm.refl _) (by decide)
  have r5 : Reaches ⟨c7g0, emptyAntiCheat⟩ ⟨c7g5, c7ac3⟩ :=
    Reaches.addSeat "p4" "p4" 400 3 c7deck c7g5 true r4 (List.Perm.refl _) (by decide)
  have r6 : Reaches ⟨c7g0, emptyAntiCheat⟩ ⟨c7g6, c7ac3⟩ :=
    Reaches.addSeat "p5" "p5" 500 4 c7deck c7g6 true r5 (List.Perm.refl _) (by decide)
  have r7 : Reaches ⟨c7g0, emptyAntiCheat⟩ ⟨c7g7, c7ac3⟩ :=
    Reaches.addSeat "p6" "p6" 10 5 c7deck c7g7 true r6 (List.Perm.refl _) (by decide)
  have r8 : Reaches ⟨c7g0, emptyAntiCheat⟩ ⟨c7g8, c7ac3⟩ :=
    Reaches.startHandOp c7deck c7g8 true r7 (List.Perm.refl _) (by decide)
  have r9 : Reaches ⟨c7g0, emptyAntiCheat⟩ ⟨c7g9, c7ac9⟩ :=
    Reaches.actionOp (allinAct "p6" 20000) 20000 c7ac9 c7g9 ⟨true, none⟩ r8 (by decide)
  have r10 : Reaches ⟨c7g0, emptyAntiCheat⟩ ⟨c7g10, c7ac10⟩ :=
    Reaches.actionOp (allinAct "p1" 21500) 21500 c7ac10 c7g10 ⟨true, none⟩ r9 (by decide)
  have r11 : Reaches ⟨c7g0, emptyAntiCheat⟩ ⟨c7g11, c7ac11⟩ :=
    Reaches.actionOp (allinAct "p2" 23000) 23000 c7ac11 c7g11 ⟨true, none⟩ r10 (by decide)
  have r12 : Reaches ⟨c7g0, emptyAntiCheat⟩ ⟨c7g12, c7ac12⟩ :=
    Reaches.actionOp (allinAct "p3" 24500) 24500 c7ac12 c7g12 ⟨true, none⟩ r11 (by decide)
  exact Reaches.actionOp (allinAct "p4" 26000) 26000 c7ac13 c7g13 ⟨true, none⟩ r12 (by decide)

/-- Claim C7 (witness). A concrete successful raise (to 10 over a high bet
of 0) leaves `raisesThisRound` at most 4. -/
theorem raise_respects_cap_witness :
    c7WAction.action = ActionKind.raise ∧
    processAction emptyAntiCheat 7000 c7WGame c7WAction =
      (c7WOut.1, some (c7WG, ⟨true, none⟩)) ∧
    c7WG.state.raisesThisRound ≤ 4 :=
  ⟨rfl, by decide,
    (raise_respects_cap emptyAntiCheat 7000 c7WGame c7WAction c7WOut.1 c7WG
      ⟨true, none⟩ rfl (by decide)).1 rfl⟩

theorem updateAt_get?_ne {α : Type} (f : α → α) :
    ∀ (l : List α) (i j : Nat), i ≠ j → (updateAt j f l).get? i = l.get? i := by
  intro l
  induction l with
  | nil => intro i j _; cases j <;> rfl
  | cons x xs ih =>
    intro i j hij
    match j with
    | 0 =>
      match i with
      | 0 => exact absurd rfl hij
      | i + 1 => rfl
    | j + 1 =>
      match i with
      | 0 => rfl
      | i + 1 => exact ih i j (fun h => hij (by rw [h]))

theorem updateAt_get?_eq {α : Type} (f : α → α) :
    ∀ (l : List α) (j : Nat) (x : α), l.get? j = some x →
      (updateAt j f l).get? j = some (f x) := by
  intro l
  induction l with
  | nil => intro j x h; cases j <;> exact absurd h (by simp)
  | cons a tl ih =>
    intro j x h
    match j with
    | 0 =>
      have hx : a = x := by simpa using h
      subst hx
      rfl
    | j + 1 => exact ih j x (by simpa using h)

theorem mapFromIdx_get? {α : Type} (f : Nat → α → α) :
    ∀ (l : List α) (n i : Nat),
      (mapFromIdx f n l).get? i = (l.get? i).map (f (n + i)) := by
  intro l
  induction l with
  | nil => intro n i; rfl
  | cons x xs ih =>
    intro n i
    match i with
    | 0 => rfl
    | i + 1 =>
      show (mapFromIdx f (n + 1) xs).get? i = (xs.get? i).map (f (n + (i + 1)))
      rw [ih (n + 1) i, show n + 1 + i = n + (i + 1) from by omega]

theorem resetOthersHasActed_get? (j : Nat) (ps : List ServerPlayer) (i : Nat) :
    (resetOthersHasActed j ps).get? i = (ps.get? i).map (fun p =>
      if i ≠ j ∧ p.folded = false ∧ p.isAllIn = false then { p with hasActed := false }
      else p) := by
  unfold resetOthersHasActed
  rw [mapFromIdx_get?]
  simp

theorem two_le_filter_of_lt {α : Type} (p : α → Bool) :
    ∀ (l : List α) (i j : Nat) (x y : α), i < j → l.get? i = some x →
      l.get? j = some y → p x = true → p y = true → 2 ≤ (l.filter p).length := by
  intro l
  induction l with
  | nil => intro i j x y _ hx _ _ _; cases i <;> exact absurd hx (by simp)
  | cons a tl ih =>
    intro i j x y hij hx hy hpx hpy
    match i, j with
    | _, 0 => omega
    | 0, j + 1 =>
      have hxa : a = x := by simpa using hx
      have hytl : tl.get? j = some y := by simpa using hy
      have hmem : y ∈ tl.filter p := List.mem_filter.mpr ⟨List.get?_mem hytl, hpy⟩
      have h1 : 1 ≤ (tl.filter p).length := List.length_pos.mpr (by
        intro hnil; rw [hnil] at hmem; exact absurd hmem (by simp))
      rw [List.filter_cons, hxa, hpx]
      simp only [if_true]
      simpa using h1
    | i + 1, j + 1 =>
      have h2 := ih i j x y (by omega) (by simpa using hx) (by simpa using hy) hpx hpy
      rw [List.filter_cons]
      split
      · simp only [List.length_cons]; omega
      · exact h2

theorem two_le_filter_of_ne {α : Type} (p : α → Bool) (l : List α) (i j : Nat)
    (x y : α) (hij : i ≠ j) (hx : l.get? i = some x) (hy : l.get? j = some y)
    (hpx : p x = true) (hpy : p y = true) : 2 ≤ (l.filter p).length := by
  rcases Nat.lt_or_ge i j with h | h
  · exact two_le_filter_of_lt p l i j x y h hx hy hpx hpy
  · have hlt : j < i := by omega
    exact two_le_filter_of_lt p l j i y x hlt hy hx hpy hpx


theorem applyActionSwitch_allin (s : GameState) (j : Nat) (p : ServerPlayer)
    (a : PlayerAction) (ha : a.action = ActionKind.allin)
    (hover : s.currentHighBet < p.currentRoundBet + p.odStack) :
    applyActionSwitch s j p a = Except.ok { s with
      lastRaiseAmount := p.currentRoundBet + p.odStack - s.currentHighBet
      currentHighBet := p.currentRoundBet + p.odStack
      raisesThisRound := s.raisesThisRound + 1
      players := updateAt j (fun r =>
        { r with
          odStack := 0
          currentRoundBet := r.currentRoundBet + p.odStack
          totalBetThisHand := r.totalBetThisHand + p.odStack
          isAllIn := true
          hasActed := true }) (resetOthersHasActed j s.players)
      pot := s.pot + p.odStack
      lastAction := some ⟨j, "ALL IN"⟩ } := by
  unfold applyActionSwitch
  rw [ha]
  dsimp only
  rw [if_pos hover]

theorem processAction_ok (ac : AntiCheatState) (now : Int) (g : Game)
    (a : PlayerAction) (j : Nat) (p : ServerPlayer) (s' : GameState) (g' : Game)
    (hv : (validateAction ac g.state a now).2.1 = true)
    (hj : g.state.players.findIdx? (fun r => decide (r.odId = a.odId)) = some j)
    (hact : (j : Int) = g.state.activePlayerIndex)
    (hw : g.state.stage ≠ GameStage.waiting) (hs : g.state.stage ≠ GameStage.showdown)
    (hp : g.state.players.get? j = some p)
    (hnf : p.folded = false) (hna : p.isAllIn = false)
    (hswitch : applyActionSwitch g.state j p a = Except.ok s')
    (hadv : advanceGame { g with state := s' } = some g') :
    processAction ac now g a =
      ((validateAction ac g.state a now).1, some (g', ⟨true, none⟩)) := by
  unfold processAction
  dsimp only
  rw [hv, if_neg (by simp : ¬(true = false)), hj]
  dsimp only
  rw [if_neg (not_not_intro hact), if_neg (not_or.mpr ⟨hw, hs⟩), hp]
  dsimp only
  rw [if_neg (by simp [hnf, hna]), hswitch]
  dsimp only
  rw [hadv]

theorem skipFoldedOrAllIn_players (s : GameState) :
    (skipFoldedOrAllIn s).players = s.players := rfl

theorem all_eq_false_of_mem {α : Type} (pred : α → Bool) (l : List α) (x : α)
    (hx : x ∈ l) (hpx : pred x = false) : l.all pred = false := by
  rw [← Bool.not_eq_true, List.all_eq_true]
  intro hall
  rw [hall x hx] at hpx
  exact Bool.true_eq_false.mp hpx

theorem advanceGame_moves_on (g2 : Game)
    (h2 : 2 ≤ (g2.state.players.filter (fun p => !p.folded)).length)
    (hk : ∃ r ∈ g2.state.players, r.folded = false ∧ r.isAllIn = false ∧
      r.hasActed = false) :
    advanceGame g2 = some { g2 with state := skipFoldedOrAllIn { g2.state with
      activePlayerIndex :=
        (g2.state.activePlayerIndex + 1) % (g2.state.players.length : Int) } } := by
  obtain ⟨r, hrmem, hrf, hra, hrh⟩ := hk
  unfold advanceGame
  dsimp only
  rw [if_neg (by omega : ¬(g2.state.players.filter (fun p => !p.folded)).length = 1)]
  have hmem2 : r ∈ g2.state.players.filter (fun p => !p.folded && !p.isAllIn) :=
    List.mem_filter.mpr ⟨hrmem, by rw [hrf, hra]; rfl⟩
  have hall : (g2.state.players.filter (fun p => !p.folded && !p.isAllIn)).all
      (fun p => p.hasActed) = false :=
    all_eq_false_of_mem _ _ r hmem2 hrh
  rw [if_neg (by rw [hall]; simp)]

/-- Claim C6 (amended). Contrary to spec scenario 3, an accepted all-in whose
total exceeds the current high bet by LESS than the last raise amount (an
under-raise) still re-opens the action: every other non-folded, non-all-in seat has
`hasActed` cleared, and `raisesThisRound` is incremented. -/
theorem allin_over_bet_reopens (ac : AntiCheatState) (now : Int) (g : Game)
    (a : PlayerAction) (j k : Nat) (p q : ServerPlayer)
    (ha : a.action = ActionKind.allin)
    (hv : (validateAction ac g.state a now).2.1 = true)
    (hj : g.state.players.findIdx? (fun r => decide (r.odId = a.odId)) = some j)
    (hact : (j : Int) = g.state.activePlayerIndex)
    (hw : g.state.stage ≠ GameStage.waiting)
    (hs : g.state.stage ≠ GameStage.showdown)
    (hp : g.state.players.get? j = some p)
    (hnf : p.folded = false) (hna : p.isAllIn = false)
    (hover : g.state.currentHighBet < p.currentRoundBet + p.odStack)
    (_hunder : p.currentRoundBet + p.odStack - g.state.currentHighBet <
      g.state.lastRaiseAmount)
    (hkj : k ≠ j) (hq : g.state.players.get? k = some q)
    (hqf : q.folded = false) (hqa : q.isAllIn = false) :
    ∃ ac2 g2, processAction ac now g a = (ac2, some (g2, ⟨true, none⟩)) ∧
      g2.state.raisesThisRound = g.state.raisesThisRound + 1 ∧
      ∀ i r, g2.state.players.get? i = some r → i ≠ j →
        r.folded = false → r.isAllIn = false → r.hasActed = false := by
  have hswitch := applyActionSwitch_allin g.state j p a ha hover
  set s1 : GameState := { g.state with
    lastRaiseAmount := p.currentRoundBet + p.odStack - g.state.currentHighBet
    currentHighBet := p.currentRoundBet + p.odStack
    raisesThisRound := g.state.raisesThisRound + 1
    players := updateAt j (fun r =>
      { r with
        odStack := 0
        currentRoundBet := r.currentRoundBet + p.odStack
        totalBetThisHand := r.totalBetThisHand + p.odStack
        isAllIn := true
        hasActed := true }) (resetOthersHasActed j g.state.players)
    pot := g.state.pot + p.odStack
    lastAction := some ⟨j, "ALL IN"⟩ } with hs1
  have hqk : s1.players.get? k = some { q with hasActed := false } := by
    rw [hs1]
    dsimp only
    rw [updateAt_get?_ne _ _ k j hkj, resetOthersHasActed_get?, hq]
    simp [hkj, hqf, hqa]
  have hpj : s1.players.get? j = some
      { p with
        odStack := 0
        currentRoundBet := p.currentRoundBet + p.odStack
        totalBetThisHand := p.totalBetThisHand + p.odStack
        isAllIn := true
        hasActed := true } := by
    rw [hs1]
    dsimp only
    have hpres : (resetOthersHasActed j g.state.players).get? j = some p := by
      rw [resetOthersHasActed_get?, hp]
      simp
    rw [updateAt_get?_eq _ _ j p hpres]
  have h2 : 2 ≤ (s1.players.filter (fun r => !r.folded)).length :=
    two_le_filter_of_ne (fun r => !r.folded) s1.players j k _ _
      (Ne.symm hkj) hpj hqk (by simp [hnf]) (by simp [hqf])
  have hkex : ∃ r ∈ s1.players, r.folded = false ∧ r.isAllIn = false ∧
      r.hasActed = false :=
    ⟨{ q with hasActed := false }, List.get?_mem hqk, hqf, hqa, rfl⟩
  have hadv := advanceGame_moves_on { g with state := s1 } h2 hkex
  refine ⟨(validateAction ac g.state a now).1, _,
    processAction_ok ac now g a j p s1 _ hv hj hact hw hs hp hnf hna hswitch hadv,
    rfl, ?_⟩
  intro i r hir hij hrf hra
  have hir2 : s1.players.get? i = some r := hir
  rw [hs1] at hir2
  dsimp only at hir2
  rw [updateAt_get?_ne _ _ i j hij, resetOthersHasActed_get?] at hir2
  cases hgi : g.state.players.get? i with
  | none => rw [hgi] at hir2; exact absurd hir2 (by simp)
  | some x =>
    rw [hgi] at hir2
    simp only [Option.map_some'] at hir2
    by_cases hc : i ≠ j ∧ x.folded = false ∧ x.isAllIn = false
    · rw [if_pos hc] at hir2
      cases hir2
      rfl
    · rw [if_neg hc] at hir2
      cases hir2
      exact absurd ⟨hij, hrf, hra⟩ hc

theorem allin_over_bet_reopens_witness :
    c6Action.action = ActionKind.allin ∧
    (validateAction emptyAntiCheat c6Game.state c6Action 50000).2.1 = true ∧
    c6B.currentRoundBet + c6B.odStack - c6Game.state.currentHighBet <
      c6Game.state.lastRaiseAmount ∧
    (∃ ac2 g2, processAction emptyAntiCheat 50000 c6Game c6Action =
        (ac2, some (g2, ⟨true, none⟩)) ∧
      g2.state.raisesThisRound = c6Game.state.raisesThisRound + 1 ∧
      ∀ i r, g2.state.players.get? i = some r → i ≠ 1 →
        r.folded = false → r.isAllIn = false → r.hasActed = false) :=
  ⟨rfl, by decide, by decide,
    allin_over_bet_reopens emptyAntiCheat 50000 c6Game c6Action 1 0 c6B c6A
      rfl (by decide) (by decide) (by decide) (by decide) (by decide)
      (by decide) (by decide) (by decide) (by decide) (by decide)
      (by decide) (by decide) (by decide) (by decide)⟩

theorem sumTotals_cons (p : ServerPlayer) (ps : List ServerPlayer) :
    sumTotals (p :: ps) = p.totalBetThisHand + sumTotals ps := by
  unfold sumTotals
  simp

theorem sumTotals_zero :
    ∀ ps : List ServerPlayer, (∀ q ∈ ps, q.totalBetThisHand = 0) →
      sumTotals ps = 0 := by
  intro ps
  induction ps with
  | nil => intro _; rfl
  | cons x xs ih =>
    intro h
    rw [sumTotals_cons, h x (by simp), ih (fun q hq => h q (by simp [hq]))]
    ring

theorem sumTotals_updateAt (f : ServerPlayer → ServerPlayer) :
    ∀ (ps : List ServerPlayer) (j : Nat) (q : ServerPlayer), ps.get? j = some q →
      sumTotals (updateAt j f ps) = sumTotals ps +
        ((f q).totalBetThisHand - q.totalBetThisHand) := by
  intro ps
  induction ps with
  | nil => intro j q h; cases j <;> exact absurd h (by simp)
  | cons x xs ih =>
    intro j q h
    match j with
    | 0 =>
      have hx : x = q := by simpa using h
      subst hx
      show sumTotals (f x :: xs) = _
      rw [sumTotals_cons, sumTotals_cons]
      ring
    | j + 1 =>
      show sumTotals (x :: updateAt j f xs) = _
      rw [sumTotals_cons, sumTotals_cons, ih j q (by simpa using h)]
      ring

theorem sumTotals_updateAt_pres (f : ServerPlayer → ServerPlayer)
    (ps : List ServerPlayer) (j : Nat)
    (hf : ∀ q, (f q).totalBetThisHand = q.totalBetThisHand) :
    sumTotals (updateAt j f ps) = sumTotals ps := by
  induction ps generalizing j with
  | nil => cases j <;> rfl
  | cons x xs ih =>
    match j with
    | 0 =>
      show sumTotals (f x :: xs) = _
      rw [sumTotals_cons, sumTotals_cons, hf]
    | j + 1 =>
      show sumTotals (x :: updateAt j f xs) = _
      rw [sumTotals_cons, sumTotals_cons, ih]

theorem sumTotals_mapFromIdx (f : Nat → ServerPlayer → ServerPlayer)
    (hf : ∀ i q, (f i q).totalBetThisHand = q.totalBetThisHand) :
    ∀ (ps : List ServerPlayer) (n : Nat),
      sumTotals (mapFromIdx f n ps) = sumTotals ps := by
  intro ps
  induction ps with
  | nil => intro n; rfl
  | cons x xs ih =>
    intro n
    show sumTotals (f n x :: mapFromIdx f (n + 1) xs) = _
    rw [sumTotals_cons, sumTotals_cons, hf, ih]

theorem sumTotals_resetOthersHasActed (j : Nat) (ps : List ServerPlayer) :
    sumTotals (resetOthersHasActed j ps) = sumTotals ps := by
  unfold resetOthersHasActed
  exact sumTotals_mapFromIdx _ (fun i q => by split <;> rfl) ps 0

theorem sumTotals_map_pres (f : ServerPlayer → ServerPlayer)
    (ps : List ServerPlayer)
    (hf : ∀ q, (f q).totalBetThisHand = q.totalBetThisHand) :
    sumTotals (ps.map f) = sumTotals ps := by
  induction ps with
  | nil => rfl
  | cons x xs ih =>
    rw [List.map_cons, sumTotals_cons, sumTotals_cons, hf, ih]

theorem mod_succ2_ne (d n : Nat) (h : 2 ≤ n) : (d + 2) % n ≠ (d + 1) % n := by
  intro hc
  have hr : (d + 1) % n < n := Nat.mod_lt _ (by omega)
  have h2 : (d + 2) % n = ((d + 1) % n + 1) % n := by
    conv_lhs => rw [show d + 2 = (d + 1) + 1 from rfl, Nat.add_mod]
    rw [Nat.mod_eq_of_lt (show 1 < n from by omega)]
  rcases Nat.lt_or_ge ((d + 1) % n + 1) n with hlt | hge
  · rw [h2, Nat.mod_eq_of_lt hlt] at hc
    omega
  · have hn : (d + 1) % n + 1 = n := by omega
    rw [h2, hn, Nat.mod_self] at hc
    omega
theorem dealPlayers_totals (n : Nat) :
    ∀ (ps : List ServerPlayer) (deck0 : List Card) (ps2 : List ServerPlayer)
      (deck2 : List Card), dealPlayers deck0 n ps = some (ps2, deck2) →
      ∀ q ∈ ps2, q.totalBetThisHand = 0 := by
  intro ps
  induction ps with
  | nil =>
    intro deck0 ps2 deck2 h q hq
    simp only [dealPlayers] at h
    cases h
    exact absurd hq (by simp)
  | cons p ps ih =>
    intro deck0 ps2 deck2 h q hq
    simp only [dealPlayers] at h
    cases hdraw : drawCards deck0 n with
    | none => rw [hdraw] at h; cases h
    | some pr =>
      obtain ⟨cards, rest⟩ := pr
      rw [hdraw] at h
      dsimp only at h
      cases hrec : dealPlayers rest n ps with
      | none => rw [hrec] at h; cases h
      | some pr2 =>
        obtain ⟨ps3, deck3⟩ := pr2
        rw [hrec] at h
        dsimp only at h
        cases h
        rcases List.mem_cons.mp hq with rfl | hmem
        · rfl
        · exact ih _ _ _ hrec q hmem

theorem postBlind_potInvariant_zero (s : GameState) (j : Nat) (amt : Int)
    (hinv : potInvariant s)
    (h0 : ∀ q, s.players.get? j = some q → q.totalBetThisHand = 0) :
    potInvariant (postBlind s j amt) := by
  unfold postBlind
  cases hq : s.players.get? j with
  | none => exact hinv
  | some q =>
    show s.pot + min amt q.odStack = sumTotals (updateAt j _ s.players)
    rw [sumTotals_updateAt _ s.players j q hq]
    have hq0 := h0 q hq
    unfold potInvariant at hinv
    dsimp only
    omega

theorem postBlind_get?_ne (s : GameState) (j : Nat) (amt : Int) (i : Nat)
    (hne : i ≠ j) : (postBlind s j amt).players.get? i = s.players.get? i := by
  unfold postBlind
  cases hq : s.players.get? j with
  | none => rfl
  | some q => exact updateAt_get?_ne _ s.players i j hne

theorem postBlind2_potInvariant (t : GameState) (sb bb : Nat) (a1 a2 : Int)
    (hz : ∀ q ∈ t.players, q.totalBetThisHand = 0) (hne : bb ≠ sb)
    (hpot : potInvariant t) :
    potInvariant (postBlind (postBlind t sb a1) bb a2) := by
  apply postBlind_potInvariant_zero
  · exact postBlind_potInvariant_zero _ _ _ hpot
      (fun q hq => hz q (List.get?_mem hq))
  · intro q hq
    rw [postBlind_get?_ne t sb a1 bb hne] at hq
    exact hz q (List.get?_mem hq)

theorem potInvariant_fields (s : GameState) (c e : Int) (h : potInvariant s) :
    potInvariant (skipFoldedOrAllIn
      { s with currentHighBet := c, activePlayerIndex := e }) := h

theorem potInvariant_cc (s : GameState) (cs : List Card) (h : potInvariant s) :
    potInvariant { s with communityCards := cs } := h

theorem endHand_stage (g : Game) :
    (endHand g).state.stage = GameStage.showdown ∨
    (endHand g).state.stage = GameStage.waiting := by
  unfold endHand
  dsimp only
  split
  · right; rfl
  · left; rfl

theorem runOutCards_stage (g g2 : Game) (h : runOutCards g = some g2) :
    g2.state.stage = GameStage.showdown ∨
    g2.state.stage = GameStage.waiting := by
  unfold runOutCards at h
  cases hr : runOutLoop 4 g with
  | none => rw [hr] at h; exact absurd h (by simp)
  | some gm =>
    rw [hr] at h
    simp only [Option.map_some'] at h
    cases h
    exact endHand_stage gm

theorem not_bettingStage (st : GameStage)
    (h : st = GameStage.showdown ∨ st = GameStage.waiting) :
    ¬ bettingStage st := by
  intro hc
  unfold bettingStage at hc
  rcases h with h | h <;> subst h <;>
    rcases hc with h | h | h | h <;> exact absurd h (by decide)

theorem applyActionSwitch_potInvariant (s : GameState) (j : Nat)
    (p : ServerPlayer) (a : PlayerAction) (s2 : GameState)
    (hp : s.players.get? j = some p) (hinv : potInvariant s)
    (h : applyActionSwitch s j p a = Except.ok s2) : potInvariant s2 := by
  unfold potInvariant at hinv ⊢
  unfold applyActionSwitch at h
  cases ha : a.action with
  | fold =>
    rw [ha] at h
    dsimp only at h
    cases h
    show s.pot = sumTotals (updateAt j _ s.players)
    rw [sumTotals_updateAt_pres]
    · exact hinv
    · exact fun q => rfl
  | check =>
    rw [ha] at h
    dsimp only at h
    split at h
    · cases h
    · cases h
      show s.pot = sumTotals (updateAt j _ s.players)
      rw [sumTotals_updateAt_pres]
      · exact hinv
      · exact fun q => rfl
  | call =>
    rw [ha] at h
    dsimp only at h
    cases h
    show s.pot + min (s.currentHighBet - p.currentRoundBet) p.odStack =
      sumTotals (updateAt j _ s.players)
    rw [sumTotals_updateAt _ s.players j p hp]
    dsimp only
    omega
  | raise =>
    rw [ha] at h
    dsimp only at h
    split at h
    · cases h
    · split at h
      · cases h
      · split at h
        · cases h
        · split at h
          · cases h
          · cases h
            show s.pot + min (a.amount.getD 0 - p.currentRoundBet) p.odStack =
              sumTotals (updateAt j _ (resetOthersHasActed j (updateAt j _ s.players)))
            rw [sumTotals_updateAt_pres]
            · rw [sumTotals_resetOthersHasActed,
                sumTotals_updateAt _ s.players j p hp]
              dsimp only
              omega
            · exact fun q => rfl
  | allin =>
    rw [ha] at h
    dsimp only at h
    by_cases hc : s.currentHighBet < p.currentRoundBet + p.odStack
    · rw [if_pos hc] at h
      cases h
      have hp2 : (resetOthersHasActed j s.players).get? j = some p := by
        rw [resetOthersHasActed_get?, hp]
        simp
      show s.pot + p.odStack = sumTotals (updateAt j _ (resetOthersHasActed j s.players))
      rw [sumTotals_updateAt _ _ j p hp2, sumTotals_resetOthersHasActed]
      dsimp only
      omega
    · rw [if_neg hc] at h
      cases h
      show s.pot + p.odStack = sumTotals (updateAt j _ s.players)
      rw [sumTotals_updateAt _ s.players j p hp]
      dsimp only
      omega

theorem advanceStage_potInvariant (g g2 : Game) (h : advanceStage g = some g2)
    (hinv : potInvariant g.state) (hb : bettingStage g2.state.stage) :
    potInvariant g2.state := by
  have hmap : sumTotals (g.state.players.map (fun (p : ServerPlayer) =>
      { p with currentRoundBet := 0, hasActed := p.folded || p.isAllIn })) =
      sumTotals g.state.players := sumTotals_map_pres _ _ (fun q => rfl)
  unfold advanceStage at h
  dsimp only at h
  split at h
  · split at h
    · cases h
    · cases h
      show g.state.pot = sumTotals (g.state.players.map _)
      rw [hmap]
      exact hinv
  · split at h
    · cases h
    · cases h
      show g.state.pot = sumTotals (g.state.players.map _)
      rw [hmap]
      exact hinv
  · split at h
    · cases h
    · cases h
      show g.state.pot = sumTotals (g.state.players.map _)
      rw [hmap]
      exact hinv
  · cases h
    exact absurd hb (not_bettingStage _ (endHand_stage _))
  · cases h
    show g.state.pot = sumTotals (g.state.players.map _)
    rw [hmap]
    exact hinv

theorem advanceGame_potInvariant (g g2 : Game) (h : advanceGame g = some g2)
    (hinv : potInvariant g.state) (hb : bettingStage g2.state.stage) :
    potInvariant g2.state := by
  unfold advanceGame at h
  dsimp only at h
  split at h
  · cases h
    exact absurd hb (not_bettingStage _ (endHand_stage g))
  · split at h
    · split at h
      · exact absurd hb (not_bettingStage _ (runOutCards_stage _ _ h))
      · exact advanceStage_potInvariant g g2 h hinv hb
    · cases h
      exact hinv

theorem removePlayer_potInvariant (g : Game) (odId : String)
    (hst : g.state.stage ≠ GameStage.waiting) (hinv : potInvariant g.state) :
    potInvariant ((removePlayer g odId).1).state := by
  unfold removePlayer
  cases hf : g.state.players.findIdx? (fun p => decide (p.odId = odId)) with
  | none => exact hinv
  | some idx =>
    dsimp only
    split
    · show g.state.pot = sumTotals (updateAt idx _ g.state.players)
      rw [sumTotals_updateAt_pres]
      · exact hinv
      · exact fun q => rfl
    · rename_i hcon
      exact absurd hst hcon

theorem processAction_potInvariant (ac : AntiCheatState) (now : Int) (g : Game)
    (a : PlayerAction) (ac2 : AntiCheatState) (g2 : Game) (res : ActionResult)
    (h : processAction ac now g a = (ac2, some (g2, res)))
    (hinv : potInvariant g.state) (hb : bettingStage g2.state.stage) :
    potInvariant g2.state := by
  unfold processAction at h
  dsimp only at h
  split at h
  · cases h; exact hinv
  · split at h
    · cases h; exact hinv
    · split at h
      · cases h; exact hinv
      · split at h
        · cases h; exact hinv
        · split at h
          · cases h; exact hinv
          · rename_i player hplayer
            split at h
            · cases h; exact hinv
            · split at h
              · cases h; exact hinv
              · rename_i s3 hsw
                split at h
                · cases h
                · rename_i gn hadv
                  cases h
                  have hinv3 : potInvariant s3 :=
                    applyActionSwitch_potInvariant g.state _ player a s3 hplayer
                      hinv hsw
                  exact advanceGame_potInvariant _ _ hadv hinv3 hb

theorem startHand_potInvariant (g : Game) (fresh : List Card) (g2 : Game)
    (h : startHand g fresh = some (g2, true)) : potInvariant g2.state := by
  unfold startHand at h
  dsimp only at h
  split at h
  · exact absurd h (by simp)
  · rename_i hlen
    split at h
    · cases h
    · rename_i dealt deckAfterDeal hdeal
      have hz : ∀ q ∈ dealt, q.totalBetThisHand = 0 :=
        dealPlayers_totals _ _ _ _ _ hdeal
      have hne := mod_succ2_ne ((g.state.dealerIndex + 1) %
        (g.state.players.filter alive).length)
        (g.state.players.filter alive).length (by omega)
      split at h
      · split at h
        · cases h
        · cases h
          refine potInvariant_cc _ _ ?_
          refine potInvariant_fields _ _ _ ?_
          refine postBlind2_potInvariant _ _ _ _ _ hz hne ?_
          show (0 : Int) = sumTotals dealt
          exact (sumTotals_zero dealt hz).symm
      · cases h
        refine potInvariant_fields _ _ _ ?_
        refine postBlind2_potInvariant _ _ _ _ _ hz hne ?_
        show (0 : Int) = sumTotals dealt
        exact (sumTotals_zero dealt hz).symm

/-- Claim C8. The pot equals the sum of `totalBetThisHand` over the seats
while a hand is running: `startHand` establishes the invariant when it deals
a hand (blind postings included), `processAction` preserves it through every
fold, check, call, raise, and all-in action together with any resulting
stage advance that lands in a betting street (i.e. until the pot is
distributed by `endHand`), and removing a seat mid-hand preserves it too. -/
theorem pot_equals_sum_of_total_bets :
    (∀ g fresh g2, startHand g fresh = some (g2, true) →
      potInvariant g2.state) ∧
    (∀ ac now g a ac2 g2 res,
      processAction ac now g a = (ac2, some (g2, res)) →
      potInvariant g.state → bettingStage g2.state.stage →
      potInvariant g2.state) ∧
    (∀ g odId, g.state.stage ≠ GameStage.waiting → potInvariant g.state →
      potInvariant ((removePlayer g odId).1).state) :=
  ⟨fun g fresh g2 h => startHand_potInvariant g fresh g2 h,
   fun ac now g a ac2 g2 res h hinv hb =>
     processAction_potInvariant ac now g a ac2 g2 res h hinv hb,
   fun g odId hst hinv => removePlayer_potInvariant g odId hst hinv⟩

theorem pot_equals_sum_of_total_bets_witness :
    (startHand c2Game (createDeck GameType.texas) = some (c8Start, true) ∧
      potInvariant c8Start.state) ∧
    (processAction emptyAntiCheat 50000 c6Game c6Action =
        (c6Out.1, some (c8After, ⟨true, none⟩)) ∧
      potInvariant c6Game.state ∧ bettingStage c8After.state.stage ∧
      potInvariant c8After.state) ∧
    (c6Game.state.stage ≠ GameStage.waiting ∧
      potInvariant ((removePlayer c6Game "A").1).state) :=
  ⟨⟨by decide, pot_equals_sum_of_total_bets.1 c2Game
      (createDeck GameType.texas) c8Start (by decide)⟩,
   ⟨by decide, by unfold potInvariant; decide, by unfold bettingStage; decide,
    pot_equals_sum_of_total_bets.2.1 emptyAntiCheat 50000 c6Game c6Action
      c6Out.1 c8After ⟨true, none⟩ (by decide)
      (by unfold potInvariant; decide) (by unfold bettingStage; decide)⟩,
   ⟨by decide, pot_equals_sum_of_total_bets.2.2 c6Game "A" (by decide)
      (by unfold potInvariant; decide)⟩⟩

end PokerServer
